import Mathlib

/-!
Verification development for the dataset-preparation script
`data_collection.py` (LibriSpeech / UrbanSound8K download, extraction and
flac-to-wav normalization).

The script is shallowly embedded: the filesystem is an explicit state (an
association list from paths to file data plus a set of directories), the
network and the audio-conversion library are oracles supplied as an
environment, and every observable action (download attempt, successful
download, member extraction, conversion, deletion, log line) is recorded in
an event trace.  Fallible operations return a run result that distinguishes
normal completion from an uncaught exception aborting the run.
-/

set_option autoImplicit false

/-- String constant for the flac extension used by the script. -/
def flacExt : String := ".flac"

/-- String constant for the wav extension used by the script. -/
def wavExt : String := ".wav"

/-- String constant for the tar.gz extension used by the script. -/
def tarGzExt : String := ".tar.gz"

/-- String constant for the extraction-marker suffix used by the script. -/
def extractedExt : String := ".extracted"

/-- Path separator. -/
def slashStr : String := "/"

/-- Python `os.path.join(a, b)` for relative `b`. -/
def pjoin (a b : String) : String := a ++ slashStr ++ b

/-- Python `s.endswith(suf)`. -/
def strSuffix (suf s : String) : Bool := decide (suf.data <:+ s.data)

/-- Python `s.startswith(pre)`. -/
def strPrefixB (pre s : String) : Bool := decide (pre.data <+: s.data)

/-- Python `s.replace(pat, rep)` on character lists with explicit fuel
(structural recursion so that it evaluates inside the kernel): replace every
non-overlapping occurrence of `pat`, scanning left to right.  The empty
pattern (never used by the script) is treated as matching nothing. -/
def pyReplaceFuel (pat rep : List Char) : Nat → List Char → List Char
  | 0, s => s
  | _ + 1, [] => []
  | fuel + 1, c :: rest =>
    if pat.isPrefixOf (c :: rest) then
      match pat with
      | [] => c :: pyReplaceFuel pat rep fuel rest
      | _ :: pt => rep ++ pyReplaceFuel pat rep fuel (rest.drop pt.length)
    else c :: pyReplaceFuel pat rep fuel rest

/-- Python `s.replace(pat, rep)` on character lists.  Each step consumes at
least one character, so fuel equal to the length is always enough. -/
def pyReplaceL (pat rep s : List Char) : List Char :=
  pyReplaceFuel pat rep s.length s

/-- Python `s.replace(pat, rep)`. -/
def strReplace (s pat rep : String) : String :=
  String.mk (pyReplaceL pat.data rep.data s.data)

/-- Python `s.split('/')` on character lists (structural recursion;
`String.splitOn` itself does not reduce in the kernel). -/
def splitSlashL : List Char → List (List Char)
  | [] => [[]]
  | c :: rest =>
    if c = '/' then [] :: splitSlashL rest
    else
      match splitSlashL rest with
      | [] => [[c]]
      | part :: parts => (c :: part) :: parts

/-- Python `s.split('/')`. -/
def strSplitSlash (s : String) : List String :=
  (splitSlashL s.data).map String.mk

/-- Python `url.split('/')[-1]`. -/
def filenameOf (url : String) : String := (strSplitSlash url).getLastD ""

/-- A member of a tar archive.  Only the name and (for audio members) the
sample rate and channel count of the stored audio are relevant to the
script, so member content is abstracted to those fields. -/
structure TarMember where
  name : String
  rate : Nat
  channels : Nat
  deriving DecidableEq, Repr

/-- Content of a file in the modelled filesystem: raw bytes, an audio file
with a sample rate and channel count, a readable tar.gz archive, or bytes
that `tarfile.open` fails to read. -/
inductive FileData where
  | bytes (s : String)
  | audio (sampleRate : Nat) (channels : Nat)
  | tar (members : List TarMember)
  | corruptTar
  deriving DecidableEq, Repr

/-- The filesystem: files as an association list from path to content, plus
the set of existing directories. -/
structure FS where
  files : List (String × FileData)
  dirs : List String
  deriving DecidableEq, Repr

/-- Content of a file, `none` if absent (`Modelled` read). -/
def FS.read (fs : FS) (p : String) : Option FileData :=
  (fs.files.find? (fun q => decide (q.1 = p))).map (fun q => q.2)

/-- Python `os.path.exists`: true for files and directories. -/
def FS.existsPath (fs : FS) (p : String) : Bool :=
  fs.files.any (fun q => decide (q.1 = p)) || fs.dirs.contains p

/-- Create or overwrite a file (Python `open(p, 'w')` / streaming write). -/
def FS.write (fs : FS) (p : String) (d : FileData) : FS :=
  { fs with files := (p, d) :: fs.files.filter (fun q => decide (q.1 ≠ p)) }

/-- Python `os.remove`. -/
def FS.remove (fs : FS) (p : String) : FS :=
  { fs with files := fs.files.filter (fun q => decide (q.1 ≠ p)) }

/-- Create a single directory if absent. -/
def FS.mkdir (fs : FS) (p : String) : FS :=
  if fs.dirs.contains p then fs else { fs with dirs := p :: fs.dirs }

/-- One step of `os.makedirs`: create the next path component. -/
def makedirsStep (acc : FS × Option String) (part : String) : FS × Option String :=
  let d := match acc.2 with
    | none => part
    | some pre => pre ++ slashStr ++ part
  (acc.1.mkdir d, some d)

/-- Python `os.makedirs(p, exist_ok=True)`: create `p` and all ancestors. -/
def osMakedirs (fs : FS) (p : String) : FS :=
  ((strSplitSlash p).foldl makedirsStep (fs, none)).1

/-- Observable actions of a run, in order. -/
inductive Event where
  | attempt (url : String)
  | download (url : String)
  | extractMember (name : String)
  | convert (flacPath : String)
  | deleteFile (path : String)
  | logInfo (msg : String)
  | logWarning (msg : String)
  | logError (msg : String)
  deriving DecidableEq, Repr

/-- Run state: filesystem plus the event trace so far. -/
structure St where
  fs : FS
  events : List Event
  deriving Repr

/-- Append one event. -/
def St.addEvent (st : St) (e : Event) : St :=
  { st with events := st.events ++ [e] }

/-- Result of a fallible stage: normal completion, or an uncaught exception
aborting the run with the state reached so far. -/
inductive RunResult where
  | ok (st : St)
  | aborted (st : St)
  deriving Repr

/-- The state carried by a run result. -/
def stOf : RunResult → St
  | RunResult.ok st => st
  | RunResult.aborted st => st

/-- Outcome of the `librosa.load` / `sf.write` / `os.remove` try-block for
one file: success, or an exception raised while loading, writing, or
removing. -/
inductive ConvOutcome where
  | ok
  | errLoad
  | errWrite
  | errRemove
  deriving DecidableEq, Repr

/-- Environment: the network (`requests.get`, `none` models a raised
connection error) and the audio-conversion library outcome per flac path. -/
structure Env where
  net : String → Option FileData
  conv : String → ConvOutcome

/-- Python `tarfile.open(filepath, 'r:gz')` on the stored content:
yields the member list, or fails (missing file or unreadable data). -/
def openTar : Option FileData → Option (List TarMember)
  | some (FileData.tar ms) => some ms
  | _ => none

/-- Result of `librosa.load(path, sr=target)` with `mono` defaulting to
true: an explicit target rate resamples to it, and mono downmixes to one
channel (library semantics at the call site). -/
def librosaLoad (fileRate fileChannels : Nat) (sr : Option Nat) (mono : Bool) :
    Nat × Nat :=
  ((match sr with
    | some r => r
    | none => fileRate),
   (if mono then 1 else fileChannels))

/-- `BASE_DIR` from the script. -/
def BASE_DIR : String := "RealTime_Denoise_App/datasets"

/-- `LIBRISPEECH_DIR = os.path.join(BASE_DIR, 'LibriSpeech')`. -/
def LIBRISPEECH_DIR : String := pjoin BASE_DIR "LibriSpeech"

/-- `URBANSOUND_DIR = os.path.join(BASE_DIR, 'UrbanSound8K')`. -/
def URBANSOUND_DIR : String := pjoin BASE_DIR "UrbanSound8K"

/-- Logs directory created by `create_directories`. -/
def LOGS_DIR : String := "RealTime_Denoise_App/logs"

/-- First LibriSpeech URL. -/
def LS_URL1 : String := "http://www.openslr.org/resources/12/train-clean-100.tar.gz"

/-- Second LibriSpeech URL. -/
def LS_URL2 : String := "http://www.openslr.org/resources/12/dev-clean.tar.gz"

/-- `LIBRISPEECH_URLS` from the script. -/
def LIBRISPEECH_URLS : List String := [LS_URL1, LS_URL2]

/-- `URBANSOUND8K_URL` from the script. -/
def URBANSOUND8K_URL : String := "https://zenodo.org/record/1203745/files/UrbanSound8K.tar.gz"

/-- `create_directories()`: `os.makedirs` on the three fixed directories. -/
def create_directories (st : St) : St :=
  { st with fs := osMakedirs (osMakedirs (osMakedirs st.fs LIBRISPEECH_DIR) URBANSOUND_DIR) LOGS_DIR }

/-- Marker-file path `os.path.join(directory, f".{filename}.extracted")`. -/
def markerPath (directory filename : String) : String :=
  pjoin directory ("." ++ filename ++ extractedExt)

/-- `is_extracted(directory, filename)`. -/
def is_extracted (fs : FS) (directory filename : String) : Bool :=
  fs.existsPath (markerPath directory filename)

/-- `mark_as_extracted(directory, filename)`: create the zero-byte marker. -/
def mark_as_extracted (fs : FS) (directory filename : String) : FS :=
  fs.write (markerPath directory filename) (FileData.bytes "")

/-- Derived wav path: `flac_path.replace('.flac', '.wav')`. -/
def flacWav (p : String) : String := strReplace p flacExt wavExt

/-- The `.flac` file paths found by `os.walk(directory)` (files strictly
below `directory` whose name ends with `.flac`). -/
def flacFilesUnder (fs : FS) (directory : String) : List String :=
  (fs.files.filter
    (fun q => strPrefixB (directory ++ slashStr) q.1 && strSuffix flacExt q.1)).map
    (fun q => q.1)

/-- One step of the `check_flac_wav_conversion` loop for file `p`. -/
def checkFlacStep (fs : FS) (acc : Bool × List Event) (p : String) :
    Bool × List Event :=
  if fs.existsPath (flacWav p) then acc
  else (false, acc.2 ++ [Event.logWarning ("Missing WAV file for " ++ p)])

/-- `check_flac_wav_conversion(directory)`: returns `all_converted` and the
warning log entries emitted for missing wav siblings. -/
def check_flac_wav_conversion (fs : FS) (directory : String) : Bool × List Event :=
  (flacFilesUnder fs directory).foldl (checkFlacStep fs) (true, [])

/-- One iteration of the `delete_flac_files` loop body for file `p`. -/
def deleteFlacStep (st : St) (p : String) : St :=
  if st.fs.existsPath (flacWav p) then
    { fs := st.fs.remove p,
      events := st.events ++ [Event.deleteFile p, Event.logInfo ("Deleted " ++ p)] }
  else st

/-- `delete_flac_files(directory)`. -/
def delete_flac_files (st : St) (directory : String) : St :=
  (flacFilesUnder st.fs directory).foldl deleteFlacStep st

/-- The shared download block (`if not os.path.exists(filepath):` followed by
`requests.get` and a streaming write), as used by both dataset functions;
a raised connection error aborts the run. -/
def download_to (env : Env) (st : St) (url filepath msgStart msgDone : String) :
    RunResult :=
  if st.fs.existsPath filepath then RunResult.ok st
  else
    let st1 := (st.addEvent (Event.logInfo msgStart)).addEvent (Event.attempt url)
    match env.net url with
    | none => RunResult.aborted st1
    | some data =>
      RunResult.ok
        { fs := st1.fs.write filepath data,
          events := st1.events ++ [Event.download url, Event.logInfo msgDone] }

/-- One step of parent-directory creation during `tar.extract`. -/
def parentDirStep (acc : FS × String) (part : String) : FS × String :=
  let d := pjoin acc.2 part
  (acc.1.mkdir d, d)

/-- Directories created by `tar.extract(member, base)` for the member's
parent path components, then the member file itself is written. -/
def extractMemberTo (fs : FS) (base : String) (m : TarMember) : FS :=
  let withDirs :=
    (((strSplitSlash m.name).dropLast).foldl parentDirStep (fs, base)).1
  withDirs.write (pjoin base m.name) (FileData.audio m.rate m.channels)

/-- The wav data produced by `librosa.load(flac_path, sr=16000)` followed by
`sf.write(wav_path, audio, 16000)` for a member with the given stored rate
and channel count. -/
def convertedWavData (m : TarMember) : FileData :=
  FileData.audio 16000 (librosaLoad m.rate m.channels (some 16000) true).2

/-- Loop body of the LibriSpeech extraction loop for one tar member:
extract if the name ends in `.flac`, then convert inside a try-block whose
failures are logged and skipped. -/
def processMember (env : Env) (st : St) (m : TarMember) : St :=
  if strSuffix flacExt m.name then
    let flac_path := pjoin LIBRISPEECH_DIR m.name
    let wav_path := flacWav flac_path
    let fs1 := extractMemberTo st.fs LIBRISPEECH_DIR m
    let ev1 := st.events ++ [Event.extractMember m.name]
    match env.conv flac_path with
    | ConvOutcome.ok =>
      { fs := (fs1.write wav_path (convertedWavData m)).remove flac_path,
        events := ev1 ++
          [Event.convert flac_path,
           Event.logInfo ("Converted " ++ flac_path ++ " to " ++ wav_path),
           Event.deleteFile flac_path,
           Event.logInfo ("Removed " ++ flac_path)] }
    | ConvOutcome.errLoad =>
      { fs := fs1,
        events := ev1 ++ [Event.logError ("Error converting " ++ flac_path ++ " to WAV")] }
    | ConvOutcome.errWrite =>
      { fs := fs1,
        events := ev1 ++ [Event.logError ("Error converting " ++ flac_path ++ " to WAV")] }
    | ConvOutcome.errRemove =>
      { fs := fs1.write wav_path (convertedWavData m),
        events := ev1 ++
          [Event.convert flac_path,
           Event.logInfo ("Converted " ++ flac_path ++ " to " ++ wav_path),
           Event.logError ("Error converting " ++ flac_path ++ " to WAV")] }
  else st

/-- The LibriSpeech extraction loop over all tar members. -/
def processMembers (env : Env) (st : St) (members : List TarMember) : St :=
  members.foldl (processMember env) st

/-- Destination path of a LibriSpeech archive. -/
def filepathOf (url : String) : String := pjoin LIBRISPEECH_DIR (filenameOf url)

/-- `extract_dir = os.path.join(LIBRISPEECH_DIR, filename.replace('.tar.gz', ''))`. -/
def extractDirOf (url : String) : String :=
  pjoin LIBRISPEECH_DIR (strReplace (filenameOf url) tarGzExt "")

/-- The already-extracted branch of the `download_librispeech` loop:
log, check the flac/wav conversion state, and delete converted flac files
when the check succeeds. -/
def skipBranch (st : St) (filename extract_dir : String) : St :=
  let st1 := st.addEvent
    (Event.logInfo (filename ++ " already extracted. Checking for .flac to .wav conversions."))
  let chk := check_flac_wav_conversion st1.fs extract_dir
  let st2 := { st1 with events := st1.events ++ chk.2 }
  if chk.1 then delete_flac_files st2 extract_dir else st2

/-- Body of the `download_librispeech` loop for one URL. -/
def processLibUrl (env : Env) (st : St) (url : String) : RunResult :=
  let filename := filenameOf url
  let filepath := filepathOf url
  let extract_dir := extractDirOf url
  if st.fs.existsPath extract_dir && is_extracted st.fs LIBRISPEECH_DIR filename then
    RunResult.ok (skipBranch st filename extract_dir)
  else
    match download_to env st url filepath ("Downloading " ++ filename ++ "...")
        (filename ++ " downloaded successfully.") with
    | RunResult.aborted s => RunResult.aborted s
    | RunResult.ok st1 =>
      let st2 := st1.addEvent
        (Event.logInfo ("Extracting " ++ filename ++ " and converting .flac files to .wav..."))
      match openTar (st2.fs.read filepath) with
      | none => RunResult.aborted st2
      | some members =>
        let st3 := processMembers env st2 members
        let st4 := { st3 with fs := mark_as_extracted st3.fs LIBRISPEECH_DIR filename }
        RunResult.ok (st4.addEvent
          (Event.logInfo (filename ++ " extracted and processed successfully.")))

/-- Sequencing of an abortable loop: an uncaught exception stops the loop. -/
def foldAbort (f : St → String → RunResult) : St → List String → RunResult
  | st, [] => RunResult.ok st
  | st, u :: us =>
    match f st u with
    | RunResult.ok st2 => foldAbort f st2 us
    | RunResult.aborted st2 => RunResult.aborted st2

/-- `download_librispeech()`. -/
def download_librispeech (env : Env) (st : St) : RunResult :=
  foldAbort (processLibUrl env) st LIBRISPEECH_URLS

/-- One step of `tar.extractall`: extract one member unconditionally. -/
def extractAllStep (base : String) (acc : St) (m : TarMember) : St :=
  { fs := extractMemberTo acc.fs base m,
    events := acc.events ++ [Event.extractMember m.name] }

/-- `tar.extractall(URBANSOUND_DIR)`: extract every member. -/
def extractAllMembers (st : St) (base : String) (members : List TarMember) : St :=
  members.foldl (extractAllStep base) st

/-- `download_urbansound8k()`. -/
def download_urbansound8k (env : Env) (st : St) : RunResult :=
  let filename := filenameOf URBANSOUND8K_URL
  let filepath := pjoin URBANSOUND_DIR filename
  match download_to env st URBANSOUND8K_URL filepath
      "Downloading UrbanSound8K dataset..."
      "UrbanSound8K dataset downloaded successfully." with
  | RunResult.aborted s => RunResult.aborted s
  | RunResult.ok st1 =>
    if !(is_extracted st1.fs URBANSOUND_DIR filename) then
      let st2 := st1.addEvent (Event.logInfo "Extracting UrbanSound8K dataset...")
      match openTar (st2.fs.read filepath) with
      | none => RunResult.aborted st2
      | some members =>
        let st3 := extractAllMembers st2 URBANSOUND_DIR members
        let st4 := { st3 with fs := mark_as_extracted st3.fs URBANSOUND_DIR filename }
        RunResult.ok (st4.addEvent
          (Event.logInfo "UrbanSound8K dataset extracted successfully."))
    else
      RunResult.ok (st1.addEvent
        (Event.logInfo "UrbanSound8K dataset already extracted. Skipping extraction."))

/-- `main()`: directory setup, LibriSpeech, then UrbanSound8K.  (Named
`mainRun` because Lean reserves `main` for executable entry points.) -/
def mainRun (env : Env) (st : St) : RunResult :=
  let st0 := create_directories st
  match download_librispeech env st0 with
  | RunResult.aborted s => RunResult.aborted s
  | RunResult.ok s1 =>
    match download_urbansound8k env s1 with
    | RunResult.aborted s => RunResult.aborted s
    | RunResult.ok s2 =>
      RunResult.ok (s2.addEvent
        (Event.logInfo "Data collection and processing completed successfully."))

/-- `strSuffix` is the list-level suffix relation. -/
lemma strSuffix_iff (suf s : String) : strSuffix suf s = true ↔ suf.data <:+ s.data := by
  simp [strSuffix]

/-- A suffix of `b` is a suffix of `a ++ b`. -/
lemma strSuffix_append (suf a b : String) (h : strSuffix suf b = true) :
    strSuffix suf (a ++ b) = true := by
  rw [strSuffix_iff] at h ⊢
  rw [String.data_append]
  exact h.trans (List.suffix_append a.data b.data)

/-- A suffix of `b` is a suffix of `pjoin a b`. -/
lemma strSuffix_pjoin (suf a b : String) (h : strSuffix suf b = true) :
    strSuffix suf (pjoin a b) = true :=
  strSuffix_append suf (a ++ slashStr) b h

/-- Every string is a suffix of itself. -/
lemma strSuffix_self (s : String) : strSuffix s s = true := by
  rw [strSuffix_iff]

/-- A nonempty suffix determines the last character. -/
lemma getLast_of_strSuffix (suf s : String) (hne : suf.data ≠ [])
    (h : strSuffix suf s = true) : s.data.getLast? = suf.data.getLast? := by
  rw [strSuffix_iff] at h
  obtain ⟨t, ht⟩ := h
  rw [← ht]
  exact List.getLast?_append_of_ne_nil t hne

/-- A path ending in `.extracted` does not end in `.flac`. -/
lemma strSuffix_flac_false_of_extracted (p : String)
    (h : strSuffix extractedExt p = true) : strSuffix flacExt p = false := by
  cases hc : strSuffix flacExt p with
  | false => rfl
  | true =>
    have h1 := getLast_of_strSuffix extractedExt p (by decide) h
    have h2 := getLast_of_strSuffix flacExt p (by decide) hc
    rw [h1] at h2
    exact absurd h2 (by decide)

/-- Strings disagreeing on a suffix are distinct. -/
lemma strSuffix_ne {suf p q : String} (hp : strSuffix suf p = true)
    (hq : strSuffix suf q = false) : p ≠ q := by
  intro h
  rw [h, hq] at hp
  cases hp

/-- The marker path ends in `.extracted`. -/
lemma marker_extracted_suffix (directory filename : String) :
    strSuffix extractedExt (markerPath directory filename) = true :=
  strSuffix_pjoin _ _ _
    (strSuffix_append extractedExt ("." ++ filename) extractedExt
      (strSuffix_self extractedExt))

/-- The marker path does not end in `.flac`. -/
lemma marker_not_flac (directory filename : String) :
    strSuffix flacExt (markerPath directory filename) = false :=
  strSuffix_flac_false_of_extracted _ (marker_extracted_suffix directory filename)

/-- `find?` for key `q` is unaffected by filtering out a different key `p`. -/
lemma find?_filter_ne (l : List (String × FileData)) (p q : String) (h : q ≠ p) :
    (l.filter (fun r => decide (r.1 ≠ p))).find? (fun r => decide (r.1 = q)) =
      l.find? (fun r => decide (r.1 = q)) := by
  induction l with
  | nil => rfl
  | cons a l ih =>
    by_cases hap : a.1 = p
    · have haq : ¬ (a.1 = q) := fun hh => h (hh ▸ hap)
      rw [List.filter_cons_of_neg (by simp [hap]),
        List.find?_cons_of_neg _ (by simp [haq]), ih]
    · by_cases haq : a.1 = q
      · rw [List.filter_cons_of_pos (by simp [hap]),
          List.find?_cons_of_pos _ (by simp [haq]),
          List.find?_cons_of_pos _ (by simp [haq])]
      · rw [List.filter_cons_of_pos (by simp [hap]),
          List.find?_cons_of_neg _ (by simp [haq]),
          List.find?_cons_of_neg _ (by simp [haq]), ih]

/-- Reading the path just written. -/
lemma read_write_self (fs : FS) (p : String) (d : FileData) :
    (fs.write p d).read p = some d := by
  simp only [FS.read, FS.write]
  rw [List.find?_cons_of_pos _ (by simp)]
  rfl

/-- Reading another path after a write. -/
lemma read_write_ne (fs : FS) (p q : String) (d : FileData) (h : q ≠ p) :
    (fs.write p d).read q = fs.read q := by
  simp only [FS.read, FS.write]
  rw [List.find?_cons_of_neg _ (by simp; exact fun hh => h hh.symm),
    find?_filter_ne fs.files p q h]

/-- Reading another path after a removal. -/
lemma read_remove_ne (fs : FS) (p q : String) (h : q ≠ p) :
    (fs.remove p).read q = fs.read q := by
  simp only [FS.read, FS.remove]
  rw [find?_filter_ne fs.files p q h]

/-- The removed path reads as absent. -/
lemma read_remove_self (fs : FS) (p : String) : (fs.remove p).read p = none := by
  simp only [FS.read, FS.remove]
  cases hf : (fs.files.filter (fun r => decide (r.1 ≠ p))).find?
      (fun r => decide (r.1 = p)) with
  | none => rfl
  | some a =>
    have hmem := List.mem_of_find?_eq_some hf
    rw [List.mem_filter] at hmem
    rw [List.find?_eq_some] at hf
    have h1 : a.1 = p := by simpa using hf.1
    have h2 : a.1 ≠ p := by simpa using hmem.2
    exact absurd h1 h2

/-- A written path exists. -/
lemma exists_write_self (fs : FS) (p : String) (d : FileData) :
    (fs.write p d).existsPath p = true := by
  simp [FS.existsPath, FS.write, List.any_cons]

/-- Writes preserve existence. -/
lemma exists_write_of (fs : FS) (p q : String) (d : FileData)
    (h : fs.existsPath q = true) : (fs.write p d).existsPath q = true := by
  by_cases hqp : q = p
  · rw [hqp]; exact exists_write_self fs p d
  · simp only [FS.existsPath, FS.write] at h ⊢
    rw [Bool.or_eq_true] at h ⊢
    rcases h with hf | hd
    · left
      rw [List.any_eq_true] at hf
      obtain ⟨x, hx, hxq⟩ := hf
      rw [List.any_cons]
      rw [Bool.or_eq_true]
      right
      rw [List.any_eq_true]
      have hx1 : x.1 = q := of_decide_eq_true hxq
      exact ⟨x, List.mem_filter.mpr ⟨hx, by simp [hx1, hqp]⟩, hxq⟩
    · right
      exact hd

/-- Removal of a different path preserves existence both ways. -/
lemma exists_remove_ne (fs : FS) (p q : String) (h : q ≠ p) :
    (fs.remove p).existsPath q = fs.existsPath q := by
  simp only [FS.existsPath, FS.remove]
  have hany : (fs.files.filter (fun r => decide (r.1 ≠ p))).any
      (fun r => decide (r.1 = q)) = fs.files.any (fun r => decide (r.1 = q)) := by
    apply Bool.eq_iff_iff.mpr
    rw [List.any_eq_true, List.any_eq_true]
    constructor
    · rintro ⟨x, hx, hxq⟩
      exact ⟨x, (List.mem_filter.mp hx).1, hxq⟩
    · rintro ⟨x, hx, hxq⟩
      have hx1 : x.1 = q := of_decide_eq_true hxq
      exact ⟨x, List.mem_filter.mpr ⟨hx, by simp [hx1, h]⟩, hxq⟩
  rw [hany]

/-- Existence after a removal implies existence before. -/
lemma exists_of_exists_remove (fs : FS) (p q : String)
    (h : (fs.remove p).existsPath q = true) : fs.existsPath q = true := by
  by_cases hqp : q = p
  · subst hqp
    simp only [FS.existsPath, FS.remove] at h ⊢
    rw [Bool.or_eq_true] at h ⊢
    rcases h with hf | hd
    · left
      rw [List.any_eq_true] at hf
      obtain ⟨x, hx, hxq⟩ := hf
      rw [List.any_eq_true]
      exact ⟨x, (List.mem_filter.mp hx).1, hxq⟩
    · right
      exact hd
  · rw [exists_remove_ne fs p q hqp] at h
    exact h

/-- `mkdir` does not touch files. -/
lemma files_mkdir (fs : FS) (d : String) : (fs.mkdir d).files = fs.files := by
  unfold FS.mkdir
  split <;> rfl

/-- Reads are unaffected by `mkdir`. -/
lemma read_mkdir (fs : FS) (d q : String) : (fs.mkdir d).read q = fs.read q := by
  simp only [FS.read, files_mkdir]

/-- `mkdir` preserves existence. -/
lemma exists_mkdir_of (fs : FS) (d q : String) (h : fs.existsPath q = true) :
    (fs.mkdir d).existsPath q = true := by
  unfold FS.mkdir
  split
  · exact h
  · simp only [FS.existsPath] at h ⊢
    rw [Bool.or_eq_true] at h ⊢
    rcases h with hf | hd
    · left; exact hf
    · right
      rw [List.contains_cons]
      rw [Bool.or_eq_true]
      right
      exact hd

/-- `mkdir` of a different directory preserves absence. -/
lemma exists_mkdir_false (fs : FS) (d q : String) (hne : q ≠ d)
    (h : fs.existsPath q = false) : (fs.mkdir d).existsPath q = false := by
  unfold FS.mkdir
  split
  · exact h
  · simp only [FS.existsPath] at h ⊢
    rw [Bool.or_eq_false_iff] at h ⊢
    refine ⟨h.1, ?_⟩
    rw [List.contains_cons]
    rw [Bool.or_eq_false_iff]
    refine ⟨?_, h.2⟩
    simp [hne]

/-- The makedirs fold does not touch files. -/
lemma files_makedirsFold (parts : List String) :
    ∀ acc : FS × Option String,
      ((parts.foldl makedirsStep acc).1).files = (acc.1).files := by
  induction parts with
  | nil => intro acc; rfl
  | cons a l ih =>
    intro acc
    rw [List.foldl_cons, ih]
    exact files_mkdir _ _

/-- The makedirs fold preserves existence. -/
lemma exists_makedirsFold_of (parts : List String) :
    ∀ (acc : FS × Option String) (q : String), (acc.1).existsPath q = true →
      ((parts.foldl makedirsStep acc).1).existsPath q = true := by
  induction parts with
  | nil => intro acc q h; exact h
  | cons a l ih =>
    intro acc q h
    rw [List.foldl_cons]
    exact ih _ q (exists_mkdir_of _ _ q h)

/-- `osMakedirs` does not touch files. -/
lemma files_osMakedirs (fs : FS) (p : String) : (osMakedirs fs p).files = fs.files :=
  files_makedirsFold _ _

/-- Reads are unaffected by `osMakedirs`. -/
lemma read_osMakedirs (fs : FS) (p q : String) :
    (osMakedirs fs p).read q = fs.read q := by
  simp only [FS.read, files_osMakedirs]

/-- `osMakedirs` preserves existence. -/
lemma exists_osMakedirs_of (fs : FS) (p q : String) (h : fs.existsPath q = true) :
    (osMakedirs fs p).existsPath q = true :=
  exists_makedirsFold_of _ _ q h

/-- `create_directories` does not touch files. -/
lemma files_create_directories (st : St) :
    (create_directories st).fs.files = st.fs.files := by
  unfold create_directories
  rw [files_osMakedirs, files_osMakedirs, files_osMakedirs]

/-- Reads are unaffected by `create_directories`. -/
lemma read_create_directories (st : St) (q : String) :
    (create_directories st).fs.read q = st.fs.read q := by
  simp only [FS.read, files_create_directories]

/-- `create_directories` preserves existence. -/
lemma exists_create_directories_of (st : St) (q : String)
    (h : st.fs.existsPath q = true) :
    (create_directories st).fs.existsPath q = true := by
  unfold create_directories
  apply exists_osMakedirs_of
  apply exists_osMakedirs_of
  apply exists_osMakedirs_of
  exact h

/-- Changing only the filesystem keeps the event trace. -/
lemma events_withFs (st : St) (x : FS) : ({ st with fs := x } : St).events = st.events := rfl

/-- `create_directories` keeps the event trace. -/
lemma events_create_directories (st : St) :
    (create_directories st).events = st.events :=
  events_withFs st _

/-- A read that succeeds implies the path exists. -/
lemma exists_of_read_some (fs : FS) (p : String) (d : FileData)
    (h : fs.read p = some d) : fs.existsPath p = true := by
  simp only [FS.read] at h
  cases hf : fs.files.find? (fun q => decide (q.1 = p)) with
  | none => rw [hf] at h; cases h
  | some a =>
    have hmem := List.mem_of_find?_eq_some hf
    have hpa : decide (a.1 = p) = true := by
      rw [List.find?_eq_some] at hf
      exact hf.1
    simp only [FS.existsPath]
    rw [Bool.or_eq_true]
    left
    rw [List.any_eq_true]
    exact ⟨a, hmem, hpa⟩

/-- The marker file written by `mark_as_extracted` is empty (zero bytes). -/
lemma mark_as_extracted_read (fs : FS) (directory filename : String) :
    (mark_as_extracted fs directory filename).read (markerPath directory filename) =
      some (FileData.bytes "") :=
  read_write_self fs _ _

/-- `is_extracted` holds right after `mark_as_extracted`. -/
lemma is_extracted_mark (fs : FS) (directory filename : String) :
    is_extracted (mark_as_extracted fs directory filename) directory filename = true :=
  exists_write_self fs _ _

/-- Generic invariant preservation along a left fold. -/
lemma foldl_preserve {α : Type} (step : St → α → St) (Inv : St → Prop) (P : α → Prop)
    (hstep : ∀ st a, P a → Inv st → Inv (step st a)) :
    ∀ (L : List α) (st : St), (∀ a ∈ L, P a) → Inv st → Inv (L.foldl step st) := by
  intro L
  induction L with
  | nil => intro st _ h; exact h
  | cons a l ih =>
    intro st hL h
    rw [List.foldl_cons]
    exact ih _ (fun x hx => hL x (List.mem_cons_of_mem a hx))
      (hstep st a (hL a (List.mem_cons_self a l)) h)

/-- Generic event-trace extension along a left fold: each step appends
events of a given shape, hence so does the whole fold. -/
lemma foldl_events_shape {α : Type} (step : St → α → St) (Shape : Event → Prop)
    (P : α → Prop)
    (hstep : ∀ st a, P a → ∃ δ, (step st a).events = st.events ++ δ ∧
      ∀ e ∈ δ, Shape e) :
    ∀ (L : List α) (st : St), (∀ a ∈ L, P a) →
      ∃ δ, (L.foldl step st).events = st.events ++ δ ∧ ∀ e ∈ δ, Shape e := by
  intro L
  induction L with
  | nil => intro st _; exact ⟨[], by simp, by simp⟩
  | cons a l ih =>
    intro st hL
    obtain ⟨δ1, h1, hs1⟩ := hstep st a (hL a (List.mem_cons_self a l))
    obtain ⟨δ2, h2, hs2⟩ := ih (step st a) (fun x hx => hL x (List.mem_cons_of_mem a hx))
    refine ⟨δ1 ++ δ2, ?_, ?_⟩
    · rw [List.foldl_cons, h2, h1, List.append_assoc]
    · intro e he
      rcases List.mem_append.mp he with h | h
      · exact hs1 e h
      · exact hs2 e h

/-- Events the already-extracted skip branch may emit: logs and deletions
of `.flac` files only. -/
def SkipShape : Event → Prop
  | Event.deleteFile p => strSuffix flacExt p = true
  | Event.logInfo _ => True
  | Event.logWarning _ => True
  | _ => False

/-- Events the per-member extraction loop may emit. -/
def PMShape : Event → Prop
  | Event.extractMember n => strSuffix flacExt n = true
  | Event.deleteFile p => strSuffix flacExt p = true
  | Event.convert _ => True
  | Event.logInfo _ => True
  | Event.logError _ => True
  | _ => False

/-- Events the download block for a fixed URL may emit. -/
def DTShape (url : String) : Event → Prop
  | Event.attempt u => u = url
  | Event.download u => u = url
  | Event.logInfo _ => True
  | _ => False

/-- Events processing one LibriSpeech URL may emit. -/
def LibUrlShape (url : String) : Event → Prop
  | Event.attempt u => u = url
  | Event.download u => u = url
  | Event.extractMember n => strSuffix flacExt n = true
  | Event.deleteFile p => strSuffix flacExt p = true
  | _ => True

/-- Events `download_urbansound8k` may emit. -/
def UsShape : Event → Prop
  | Event.attempt u => u = URBANSOUND8K_URL
  | Event.download u => u = URBANSOUND8K_URL
  | Event.extractMember _ => True
  | Event.logInfo _ => True
  | _ => False

/-- Events a whole `mainRun` may emit. -/
def MainShape : Event → Prop
  | Event.attempt u => u = LS_URL1 ∨ u = LS_URL2 ∨ u = URBANSOUND8K_URL
  | Event.download u => u = LS_URL1 ∨ u = LS_URL2 ∨ u = URBANSOUND8K_URL
  | Event.deleteFile p => strSuffix flacExt p = true
  | _ => True

/-- Skip-branch events are a special case of per-URL events. -/
lemma SkipShape_to_LibUrl (url : String) (e : Event) (h : SkipShape e) :
    LibUrlShape url e := by
  cases e <;> simp_all [SkipShape, LibUrlShape]

/-- Member-loop events are a special case of per-URL events. -/
lemma PMShape_to_LibUrl (url : String) (e : Event) (h : PMShape e) :
    LibUrlShape url e := by
  cases e <;> simp_all [PMShape, LibUrlShape]

/-- Download-block events are a special case of per-URL events. -/
lemma DTShape_to_LibUrl (url : String) (e : Event) (h : DTShape url e) :
    LibUrlShape url e := by
  cases e <;> simp_all [DTShape, LibUrlShape]

/-- Per-URL events for a LibriSpeech URL are a special case of run events. -/
lemma LibUrlShape_to_Main (url : String) (hu : url = LS_URL1 ∨ url = LS_URL2)
    (e : Event) (h : LibUrlShape url e) : MainShape e := by
  cases e <;> simp_all [LibUrlShape, MainShape] <;> rcases hu with rfl | rfl <;> simp

/-- UrbanSound8K events are a special case of run events. -/
lemma UsShape_to_Main (e : Event) (h : UsShape e) : MainShape e := by
  cases e <;> simp_all [UsShape, MainShape]

/-- One delete step appends only skip-branch events. -/
lemma deleteFlacStep_shape (st : St) (p : String)
    (hp : strSuffix flacExt p = true) :
    ∃ δ, (deleteFlacStep st p).events = st.events ++ δ ∧ ∀ e ∈ δ, SkipShape e := by
  unfold deleteFlacStep
  split
  · refine ⟨[Event.deleteFile p, Event.logInfo ("Deleted " ++ p)], rfl, ?_⟩
    intro e he
    simp only [List.mem_cons, List.not_mem_nil, or_false] at he
    rcases he with rfl | rfl
    · exact hp
    · trivial
  · exact ⟨[], by simp, by simp⟩

/-- One delete step preserves existence of non-flac paths. -/
lemma deleteFlacStep_exists_of (st : St) (p q : String)
    (hp : strSuffix flacExt p = true) (hq : strSuffix flacExt q = false)
    (h : st.fs.existsPath q = true) :
    (deleteFlacStep st p).fs.existsPath q = true := by
  unfold deleteFlacStep
  split
  · show (st.fs.remove p).existsPath q = true
    rw [exists_remove_ne st.fs p q (Ne.symm (strSuffix_ne hp hq))]
    exact h
  · exact h

/-- Files reported by the flac walk end in `.flac`. -/
lemma flacFilesUnder_flac (fs : FS) (dir : String) :
    ∀ p ∈ flacFilesUnder fs dir, strSuffix flacExt p = true := by
  intro p hp
  unfold flacFilesUnder at hp
  rw [List.mem_map] at hp
  obtain ⟨q, hq, rfl⟩ := hp
  rw [List.mem_filter] at hq
  exact (Bool.and_eq_true _ _ |>.mp hq.2).2

/-- `delete_flac_files` appends only skip-branch events. -/
lemma delete_flac_files_events (st : St) (dir : String) :
    ∃ δ, (delete_flac_files st dir).events = st.events ++ δ ∧
      ∀ e ∈ δ, SkipShape e := by
  unfold delete_flac_files
  exact foldl_events_shape deleteFlacStep SkipShape
    (fun p => strSuffix flacExt p = true)
    (fun st p hp => deleteFlacStep_shape st p hp) _ st
    (flacFilesUnder_flac st.fs dir)

/-- `delete_flac_files` preserves existence of non-flac paths. -/
lemma delete_flac_files_exists_of (st : St) (dir q : String)
    (hq : strSuffix flacExt q = false) (h : st.fs.existsPath q = true) :
    (delete_flac_files st dir).fs.existsPath q = true := by
  unfold delete_flac_files
  exact foldl_preserve deleteFlacStep (fun s => s.fs.existsPath q = true)
    (fun p => strSuffix flacExt p = true)
    (fun st p hp hinv => deleteFlacStep_exists_of st p q hp hq hinv) _ st
    (flacFilesUnder_flac st.fs dir) h

/-- The check fold only accumulates warnings. -/
lemma check_events_shape (fs : FS) (L : List String) :
    ∀ acc : Bool × List Event, (∀ e ∈ acc.2, ∃ m, e = Event.logWarning m) →
      ∀ e ∈ (L.foldl (checkFlacStep fs) acc).2, ∃ m, e = Event.logWarning m := by
  induction L with
  | nil => intro acc h; exact h
  | cons a l ih =>
    intro acc hacc
    rw [List.foldl_cons]
    apply ih
    unfold checkFlacStep
    split
    · exact hacc
    · intro e he
      rcases List.mem_append.mp he with h | h
      · exact hacc e h
      · simp only [List.mem_singleton] at h
        exact ⟨_, h⟩

/-- `check_flac_wav_conversion` emits only warnings. -/
lemma check_flac_events (fs : FS) (dir : String) :
    ∀ e ∈ (check_flac_wav_conversion fs dir).2, ∃ m, e = Event.logWarning m :=
  check_events_shape fs _ (true, []) (by simp)

/-- The parent-directory fold preserves existence. -/
lemma exists_parentDirsFold_of (parts : List String) :
    ∀ (acc : FS × String) (q : String), (acc.1).existsPath q = true →
      ((parts.foldl parentDirStep acc).1).existsPath q = true := by
  induction parts with
  | nil => intro acc q h; exact h
  | cons a l ih =>
    intro acc q h
    rw [List.foldl_cons]
    exact ih _ q (exists_mkdir_of _ _ q h)

/-- Extracting a tar member preserves existence. -/
lemma exists_extractMemberTo_of (fs : FS) (base : String) (m : TarMember)
    (q : String) (h : fs.existsPath q = true) :
    (extractMemberTo fs base m).existsPath q = true := by
  unfold extractMemberTo
  exact exists_write_of _ _ q _ (exists_parentDirsFold_of _ _ q h)

/-- One member-loop step appends only member-loop events. -/
lemma processMember_shape (env : Env) (st : St) (m : TarMember) :
    ∃ δ, (processMember env st m).events = st.events ++ δ ∧
      ∀ e ∈ δ, PMShape e := by
  unfold processMember
  dsimp only
  split
  case isTrue hf =>
    have hfp : strSuffix flacExt (pjoin LIBRISPEECH_DIR m.name) = true :=
      strSuffix_pjoin _ _ _ hf
    split
    · refine ⟨[Event.extractMember m.name,
        Event.convert (pjoin LIBRISPEECH_DIR m.name),
        Event.logInfo ("Converted " ++ pjoin LIBRISPEECH_DIR m.name ++ " to " ++
          flacWav (pjoin LIBRISPEECH_DIR m.name)),
        Event.deleteFile (pjoin LIBRISPEECH_DIR m.name),
        Event.logInfo ("Removed " ++ pjoin LIBRISPEECH_DIR m.name)], by simp, ?_⟩
      intro e he
      simp only [List.mem_cons, List.not_mem_nil, or_false] at he
      rcases he with rfl | rfl | rfl | rfl | rfl
      · exact hf
      · trivial
      · trivial
      · exact hfp
      · trivial
    · refine ⟨[Event.extractMember m.name,
        Event.logError ("Error converting " ++ pjoin LIBRISPEECH_DIR m.name ++
          " to WAV")], by simp, ?_⟩
      intro e he
      simp only [List.mem_cons, List.not_mem_nil, or_false] at he
      rcases he with rfl | rfl
      · exact hf
      · trivial
    · refine ⟨[Event.extractMember m.name,
        Event.logError ("Error converting " ++ pjoin LIBRISPEECH_DIR m.name ++
          " to WAV")], by simp, ?_⟩
      intro e he
      simp only [List.mem_cons, List.not_mem_nil, or_false] at he
      rcases he with rfl | rfl
      · exact hf
      · trivial
    · refine ⟨[Event.extractMember m.name,
        Event.convert (pjoin LIBRISPEECH_DIR m.name),
        Event.logInfo ("Converted " ++ pjoin LIBRISPEECH_DIR m.name ++ " to " ++
          flacWav (pjoin LIBRISPEECH_DIR m.name)),
        Event.logError ("Error converting " ++ pjoin LIBRISPEECH_DIR m.name ++
          " to WAV")], by simp, ?_⟩
      intro e he
      simp only [List.mem_cons, List.not_mem_nil, or_false] at he
      rcases he with rfl | rfl | rfl | rfl
      · exact hf
      · trivial
      · trivial
      · trivial
  case isFalse hf => exact ⟨[], by simp, by simp⟩

/-- One member-loop step preserves existence of non-flac paths. -/
lemma processMember_exists_of (env : Env) (st : St) (m : TarMember) (q : String)
    (hq : strSuffix flacExt q = false) (h : st.fs.existsPath q = true) :
    (processMember env st m).fs.existsPath q = true := by
  unfold processMember
  dsimp only
  split
  case isTrue hf =>
    have hne : q ≠ pjoin LIBRISPEECH_DIR m.name :=
      Ne.symm (strSuffix_ne (strSuffix_pjoin _ _ _ hf) hq)
    have h1 : (extractMemberTo st.fs LIBRISPEECH_DIR m).existsPath q = true :=
      exists_extractMemberTo_of st.fs _ m q h
    split
    · show ((FS.remove _ _)).existsPath q = true
      rw [exists_remove_ne _ _ q hne]
      exact exists_write_of _ _ q _ h1
    · exact h1
    · exact h1
    · exact exists_write_of _ _ q _ h1
  case isFalse hf => exact h

/-- The member loop appends only member-loop events. -/
lemma processMembers_shape (env : Env) (st : St) (members : List TarMember) :
    ∃ δ, (processMembers env st members).events = st.events ++ δ ∧
      ∀ e ∈ δ, PMShape e := by
  unfold processMembers
  exact foldl_events_shape (processMember env) PMShape (fun _ => True)
    (fun st m _ => processMember_shape env st m) members st (fun _ _ => trivial)

/-- The member loop preserves existence of non-flac paths. -/
lemma processMembers_exists_of (env : Env) (st : St) (members : List TarMember)
    (q : String) (hq : strSuffix flacExt q = false)
    (h : st.fs.existsPath q = true) :
    (processMembers env st members).fs.existsPath q = true := by
  unfold processMembers
  exact foldl_preserve (processMember env) (fun s => s.fs.existsPath q = true)
    (fun _ => True) (fun st m _ hinv => processMember_exists_of env st m q hq hinv)
    members st (fun _ _ => trivial) h

/-- One extractall step appends one extraction event. -/
lemma extractAllStep_shape (base : String) (st : St) (m : TarMember) :
    ∃ δ, (extractAllStep base st m).events = st.events ++ δ ∧
      ∀ e ∈ δ, ∃ n, e = Event.extractMember n := by
  refine ⟨[Event.extractMember m.name], rfl, ?_⟩
  intro e he
  simp only [List.mem_singleton] at he
  exact ⟨_, he⟩

/-- One extractall step preserves existence. -/
lemma extractAllStep_exists_of (base : String) (st : St) (m : TarMember)
    (q : String) (h : st.fs.existsPath q = true) :
    (extractAllStep base st m).fs.existsPath q = true :=
  exists_extractMemberTo_of st.fs base m q h

/-- `tar.extractall` appends only extraction events. -/
lemma extractAllMembers_shape (st : St) (base : String)
    (members : List TarMember) :
    ∃ δ, (extractAllMembers st base members).events = st.events ++ δ ∧
      ∀ e ∈ δ, ∃ n, e = Event.extractMember n := by
  unfold extractAllMembers
  exact foldl_events_shape (extractAllStep base) _ (fun _ => True)
    (fun st m _ => extractAllStep_shape base st m) members st (fun _ _ => trivial)

/-- `tar.extractall` preserves existence. -/
lemma extractAllMembers_exists_of (st : St) (base : String)
    (members : List TarMember) (q : String) (h : st.fs.existsPath q = true) :
    (extractAllMembers st base members).fs.existsPath q = true := by
  unfold extractAllMembers
  exact foldl_preserve (extractAllStep base) (fun s => s.fs.existsPath q = true)
    (fun _ => True) (fun st m _ hinv => extractAllStep_exists_of base st m q hinv)
    members st (fun _ _ => trivial) h

/-- An existing destination short-circuits the download block: no state
change at all. -/
lemma download_to_exists (env : Env) (st : St) (url fp m1 m2 : String)
    (h : st.fs.existsPath fp = true) :
    download_to env st url fp m1 m2 = RunResult.ok st := by
  unfold download_to
  rw [if_pos h]

/-- The download block appends only download-block events. -/
lemma download_to_shape (env : Env) (st : St) (url fp m1 m2 : String) :
    ∃ δ, (stOf (download_to env st url fp m1 m2)).events = st.events ++ δ ∧
      ∀ e ∈ δ, DTShape url e := by
  unfold download_to
  dsimp only
  split
  · exact ⟨[], by simp [stOf], by simp⟩
  · split
    · refine ⟨[Event.logInfo m1, Event.attempt url], ?_, ?_⟩
      · simp [St.addEvent, stOf]
      · intro e he
        simp only [List.mem_cons, List.not_mem_nil, or_false] at he
        rcases he with rfl | rfl
        · trivial
        · rfl
    · refine ⟨[Event.logInfo m1, Event.attempt url, Event.download url,
        Event.logInfo m2], ?_, ?_⟩
      · simp [St.addEvent, stOf]
      · intro e he
        simp only [List.mem_cons, List.not_mem_nil, or_false] at he
        rcases he with rfl | rfl | rfl | rfl
        · trivial
        · rfl
        · rfl
        · trivial

/-- The download block preserves existence. -/
lemma download_to_exists_of (env : Env) (st : St) (url fp m1 m2 q : String)
    (h : st.fs.existsPath q = true) :
    (stOf (download_to env st url fp m1 m2)).fs.existsPath q = true := by
  unfold download_to
  dsimp only
  split
  · exact h
  · split
    · exact h
    · exact exists_write_of _ _ q _ h

/-- The skip branch appends only skip-branch events. -/
lemma skipBranch_shape (st : St) (fn dir : String) :
    ∃ δ, (skipBranch st fn dir).events = st.events ++ δ ∧
      ∀ e ∈ δ, SkipShape e := by
  unfold skipBranch
  dsimp only [St.addEvent]
  have hwarn := check_flac_events st.fs dir
  split
  · obtain ⟨δd, hd, hsd⟩ := delete_flac_files_events
      ⟨st.fs, (st.events ++ [Event.logInfo
          (fn ++ " already extracted. Checking for .flac to .wav conversions.")]) ++
        (check_flac_wav_conversion st.fs dir).2⟩ dir
    refine ⟨[Event.logInfo
        (fn ++ " already extracted. Checking for .flac to .wav conversions.")] ++
      (check_flac_wav_conversion st.fs dir).2 ++ δd, ?_, ?_⟩
    · rw [hd]
      simp [List.append_assoc]
    · intro e he
      rcases List.mem_append.mp he with he1 | he2
      · rcases List.mem_append.mp he1 with he3 | he4
        · simp only [List.mem_singleton] at he3
          subst he3
          trivial
        · obtain ⟨m, rfl⟩ := hwarn e he4
          trivial
      · exact hsd e he2
  · refine ⟨[Event.logInfo
        (fn ++ " already extracted. Checking for .flac to .wav conversions.")] ++
      (check_flac_wav_conversion st.fs dir).2, ?_, ?_⟩
    · simp [List.append_assoc]
    · intro e he
      rcases List.mem_append.mp he with he1 | he2
      · simp only [List.mem_singleton] at he1
        subst he1
        trivial
      · obtain ⟨m, rfl⟩ := hwarn e he2
        trivial

/-- The skip branch preserves existence of non-flac paths. -/
lemma skipBranch_exists_of (st : St) (fn dir q : String)
    (hq : strSuffix flacExt q = false) (h : st.fs.existsPath q = true) :
    (skipBranch st fn dir).fs.existsPath q = true := by
  unfold skipBranch
  dsimp only [St.addEvent]
  split
  · exact delete_flac_files_exists_of _ dir q hq h
  · exact h

/-- Processing one LibriSpeech URL appends only per-URL events. -/
lemma processLibUrl_shape (env : Env) (st : St) (url : String) :
    ∃ δ, (stOf (processLibUrl env st url)).events = st.events ++ δ ∧
      ∀ e ∈ δ, LibUrlShape url e := by
  unfold processLibUrl
  dsimp only [St.addEvent]
  split
  · obtain ⟨δ, hδ, hs⟩ := skipBranch_shape st (filenameOf url) (extractDirOf url)
    exact ⟨δ, hδ, fun e he => SkipShape_to_LibUrl url e (hs e he)⟩
  · split
    · next s heq =>
      obtain ⟨δ, hδ, hs⟩ := download_to_shape env st url (filepathOf url)
        ("Downloading " ++ filenameOf url ++ "...")
        (filenameOf url ++ " downloaded successfully.")
      rw [heq] at hδ
      exact ⟨δ, hδ, fun e he => DTShape_to_LibUrl url e (hs e he)⟩
    · next st1 heq =>
      obtain ⟨δ1, hδ1, hs1⟩ := download_to_shape env st url (filepathOf url)
        ("Downloading " ++ filenameOf url ++ "...")
        (filenameOf url ++ " downloaded successfully.")
      rw [heq] at hδ1
      simp only [stOf] at hδ1
      split
      · refine ⟨δ1 ++ [Event.logInfo ("Extracting " ++ filenameOf url ++
          " and converting .flac files to .wav...")], ?_, ?_⟩
        · dsimp only [stOf]
          rw [hδ1, List.append_assoc]
        · intro e he
          rcases List.mem_append.mp he with h1 | h2
          · exact DTShape_to_LibUrl url e (hs1 e h1)
          · simp only [List.mem_singleton] at h2
            subst h2
            trivial
      · next members heq2 =>
        obtain ⟨δ2, hδ2, hs2⟩ := processMembers_shape env
          ⟨st1.fs, st1.events ++ [Event.logInfo ("Extracting " ++ filenameOf url ++
            " and converting .flac files to .wav...")]⟩ members
        refine ⟨δ1 ++ [Event.logInfo ("Extracting " ++ filenameOf url ++
            " and converting .flac files to .wav...")] ++ δ2 ++
          [Event.logInfo (filenameOf url ++ " extracted and processed successfully.")],
          ?_, ?_⟩
        · dsimp only [stOf]
          rw [hδ2]
          dsimp only
          rw [hδ1]
          simp [List.append_assoc]
        · intro e he
          rcases List.mem_append.mp he with h1 | h2
          · rcases List.mem_append.mp h1 with h3 | h4
            · rcases List.mem_append.mp h3 with h5 | h6
              · exact DTShape_to_LibUrl url e (hs1 e h5)
              · simp only [List.mem_singleton] at h6
                subst h6
                trivial
            · exact PMShape_to_LibUrl url e (hs2 e h4)
          · simp only [List.mem_singleton] at h2
            subst h2
            trivial

/-- Processing one LibriSpeech URL preserves existence of non-flac paths. -/
lemma processLibUrl_exists_of (env : Env) (st : St) (url q : String)
    (hq : strSuffix flacExt q = false) (h : st.fs.existsPath q = true) :
    (stOf (processLibUrl env st url)).fs.existsPath q = true := by
  unfold processLibUrl
  dsimp only [St.addEvent]
  split
  · exact skipBranch_exists_of st _ _ q hq h
  · split
    · next s heq =>
      have hdt := download_to_exists_of env st url (filepathOf url)
        ("Downloading " ++ filenameOf url ++ "...")
        (filenameOf url ++ " downloaded successfully.") q h
      rw [heq] at hdt
      exact hdt
    · next st1 heq =>
      have hdt := download_to_exists_of env st url (filepathOf url)
        ("Downloading " ++ filenameOf url ++ "...")
        (filenameOf url ++ " downloaded successfully.") q h
      rw [heq] at hdt
      simp only [stOf] at hdt
      split
      · exact hdt
      · next members heq2 =>
        have h2 := processMembers_exists_of env
          ⟨st1.fs, st1.events ++ [Event.logInfo ("Extracting " ++ filenameOf url ++
            " and converting .flac files to .wav...")]⟩ members q hq hdt
        dsimp only [stOf]
        exact exists_write_of _ _ q _ h2

/-- Skip condition holds: the URL is handled entirely by the skip branch. -/
lemma processLibUrl_skip (env : Env) (st : St) (url : String)
    (h : (st.fs.existsPath (extractDirOf url) &&
      is_extracted st.fs LIBRISPEECH_DIR (filenameOf url)) = true) :
    processLibUrl env st url =
      RunResult.ok (skipBranch st (filenameOf url) (extractDirOf url)) := by
  unfold processLibUrl
  dsimp only
  rw [if_pos h]

/-- Abortable loop: event shapes compose. -/
lemma foldAbort_shape (f : St → String → RunResult) (Shape : Event → Prop) :
    ∀ (urls : List String),
      (∀ st u, u ∈ urls → ∃ δ, (stOf (f st u)).events = st.events ++ δ ∧
        ∀ e ∈ δ, Shape e) →
      ∀ st : St, ∃ δ, (stOf (foldAbort f st urls)).events = st.events ++ δ ∧
        ∀ e ∈ δ, Shape e := by
  intro urls
  induction urls with
  | nil => intro _ st; exact ⟨[], by simp [foldAbort, stOf], by simp⟩
  | cons u us ih =>
    intro hf st
    obtain ⟨δ1, h1, hs1⟩ := hf st u (List.mem_cons_self u us)
    unfold foldAbort
    cases hfu : f st u with
    | ok st2 =>
      rw [hfu] at h1
      simp only [stOf] at h1
      obtain ⟨δ2, h2, hs2⟩ :=
        ih (fun st u hu => hf st u (List.mem_cons_of_mem _ hu)) st2
      refine ⟨δ1 ++ δ2, ?_, ?_⟩
      · rw [h2, h1, List.append_assoc]
      · intro e he
        rcases List.mem_append.mp he with h | h
        · exact hs1 e h
        · exact hs2 e h
    | aborted st2 =>
      rw [hfu] at h1
      exact ⟨δ1, h1, hs1⟩

/-- Abortable loop: state invariants compose. -/
lemma foldAbort_preserve (f : St → String → RunResult) (Inv : St → Prop) :
    ∀ (urls : List String),
      (∀ st u, u ∈ urls → Inv st → Inv (stOf (f st u))) →
      ∀ st : St, Inv st → Inv (stOf (foldAbort f st urls)) := by
  intro urls
  induction urls with
  | nil => intro _ st h; exact h
  | cons u us ih =>
    intro hf st h
    have h1 := hf st u (List.mem_cons_self u us) h
    unfold foldAbort
    cases hfu : f st u with
    | ok st2 =>
      rw [hfu] at h1
      exact ih (fun st u hu => hf st u (List.mem_cons_of_mem _ hu)) st2 h1
    | aborted st2 =>
      rw [hfu] at h1
      exact h1

/-- `download_librispeech` appends only run events. -/
lemma download_librispeech_shape (env : Env) (st : St) :
    ∃ δ, (stOf (download_librispeech env st)).events = st.events ++ δ ∧
      ∀ e ∈ δ, MainShape e := by
  unfold download_librispeech
  refine foldAbort_shape (processLibUrl env) MainShape LIBRISPEECH_URLS ?_ st
  intro st u hu
  obtain ⟨δ, hδ, hs⟩ := processLibUrl_shape env st u
  refine ⟨δ, hδ, fun e he => ?_⟩
  have hu2 : u = LS_URL1 ∨ u = LS_URL2 := by
    simpa [LIBRISPEECH_URLS] using hu
  exact LibUrlShape_to_Main u hu2 e (hs e he)

/-- `download_librispeech` preserves existence of non-flac paths. -/
lemma download_librispeech_exists_of (env : Env) (st : St) (q : String)
    (hq : strSuffix flacExt q = false) (h : st.fs.existsPath q = true) :
    (stOf (download_librispeech env st)).fs.existsPath q = true := by
  unfold download_librispeech
  exact foldAbort_preserve (processLibUrl env)
    (fun s => s.fs.existsPath q = true) LIBRISPEECH_URLS
    (fun st u _ hinv => processLibUrl_exists_of env st u q hq hinv) st h

/-- `download_urbansound8k` appends only UrbanSound8K events. -/
lemma download_urbansound8k_shape (env : Env) (st : St) :
    ∃ δ, (stOf (download_urbansound8k env st)).events = st.events ++ δ ∧
      ∀ e ∈ δ, UsShape e := by
  unfold download_urbansound8k
  dsimp only [St.addEvent]
  split
  · next s heq =>
    obtain ⟨δ, hδ, hs⟩ := download_to_shape env st URBANSOUND8K_URL
      (pjoin URBANSOUND_DIR (filenameOf URBANSOUND8K_URL))
      "Downloading UrbanSound8K dataset..."
      "UrbanSound8K dataset downloaded successfully."
    rw [heq] at hδ
    refine ⟨δ, hδ, fun e he => ?_⟩
    have h1 := hs e he
    cases e <;> simp_all [DTShape, UsShape]
  · next st1 heq =>
    obtain ⟨δ1, hδ1, hs1⟩ := download_to_shape env st URBANSOUND8K_URL
      (pjoin URBANSOUND_DIR (filenameOf URBANSOUND8K_URL))
      "Downloading UrbanSound8K dataset..."
      "UrbanSound8K dataset downloaded successfully."
    rw [heq] at hδ1
    simp only [stOf] at hδ1
    have hDT : ∀ e ∈ δ1, UsShape e := by
      intro e he
      have h1 := hs1 e he
      cases e <;> simp_all [DTShape, UsShape]
    split
    · split
      · refine ⟨δ1 ++ [Event.logInfo "Extracting UrbanSound8K dataset..."], ?_, ?_⟩
        · dsimp only [stOf]
          rw [hδ1, List.append_assoc]
        · intro e he
          rcases List.mem_append.mp he with h1 | h2
          · exact hDT e h1
          · simp only [List.mem_singleton] at h2
            subst h2
            trivial
      · next members heq2 =>
        obtain ⟨δ2, hδ2, hs2⟩ := extractAllMembers_shape
          ⟨st1.fs, st1.events ++ [Event.logInfo "Extracting UrbanSound8K dataset..."]⟩
          URBANSOUND_DIR members
        refine ⟨δ1 ++ [Event.logInfo "Extracting UrbanSound8K dataset..."] ++ δ2 ++
          [Event.logInfo "UrbanSound8K dataset extracted successfully."], ?_, ?_⟩
        · dsimp only [stOf]
          rw [hδ2]
          dsimp only
          rw [hδ1]
          simp [List.append_assoc]
        · intro e he
          rcases List.mem_append.mp he with h1 | h2
          · rcases List.mem_append.mp h1 with h3 | h4
            · rcases List.mem_append.mp h3 with h5 | h6
              · exact hDT e h5
              · simp only [List.mem_singleton] at h6
                subst h6
                trivial
            · obtain ⟨n, rfl⟩ := hs2 e h4
              trivial
          · simp only [List.mem_singleton] at h2
            subst h2
            trivial
    · refine ⟨δ1 ++
        [Event.logInfo "UrbanSound8K dataset already extracted. Skipping extraction."],
        ?_, ?_⟩
      · dsimp only [stOf]
        rw [hδ1, List.append_assoc]
      · intro e he
        rcases List.mem_append.mp he with h1 | h2
        · exact hDT e h1
        · simp only [List.mem_singleton] at h2
          subst h2
          trivial

/-- `download_urbansound8k` preserves existence. -/
lemma download_urbansound8k_exists_of (env : Env) (st : St) (q : String)
    (h : st.fs.existsPath q = true) :
    (stOf (download_urbansound8k env st)).fs.existsPath q = true := by
  unfold download_urbansound8k
  dsimp only [St.addEvent]
  split
  · next s heq =>
    have hdt := download_to_exists_of env st URBANSOUND8K_URL
      (pjoin URBANSOUND_DIR (filenameOf URBANSOUND8K_URL))
      "Downloading UrbanSound8K dataset..."
      "UrbanSound8K dataset downloaded successfully." q h
    rw [heq] at hdt
    exact hdt
  · next st1 heq =>
    have hdt := download_to_exists_of env st URBANSOUND8K_URL
      (pjoin URBANSOUND_DIR (filenameOf URBANSOUND8K_URL))
      "Downloading UrbanSound8K dataset..."
      "UrbanSound8K dataset downloaded successfully." q h
    rw [heq] at hdt
    simp only [stOf] at hdt
    split
    · split
      · exact hdt
      · next members heq2 =>
        have h2 := extractAllMembers_exists_of
          ⟨st1.fs, st1.events ++ [Event.logInfo "Extracting UrbanSound8K dataset..."]⟩
          URBANSOUND_DIR members q hdt
        dsimp only [stOf]
        exact exists_write_of _ _ q _ h2
    · exact hdt

/-- `mainRun` appends only run events (starting from its own trace). -/
lemma mainRun_shape (env : Env) (st : St) :
    ∃ δ, (stOf (mainRun env st)).events = st.events ++ δ ∧
      ∀ e ∈ δ, MainShape e := by
  unfold mainRun
  dsimp only [St.addEvent]
  obtain ⟨δ1, hδ1, hs1⟩ := download_librispeech_shape env (create_directories st)
  rw [events_create_directories] at hδ1
  split
  · next s heq =>
    rw [heq] at hδ1
    exact ⟨δ1, hδ1, hs1⟩
  · next s1 heq =>
    rw [heq] at hδ1
    simp only [stOf] at hδ1
    obtain ⟨δ2, hδ2, hs2⟩ := download_urbansound8k_shape env s1
    split
    · next s2 heq2 =>
      rw [heq2] at hδ2
      refine ⟨δ1 ++ δ2, ?_, ?_⟩
      · rw [hδ2, hδ1, List.append_assoc]
      · intro e he
        rcases List.mem_append.mp he with h1 | h2
        · exact hs1 e h1
        · exact UsShape_to_Main e (hs2 e h2)
    · next s2 heq2 =>
      rw [heq2] at hδ2
      simp only [stOf] at hδ2
      refine ⟨δ1 ++ δ2 ++
        [Event.logInfo "Data collection and processing completed successfully."],
        ?_, ?_⟩
      · dsimp only [stOf]
        rw [hδ2, hδ1]
        simp [List.append_assoc]
      · intro e he
        rcases List.mem_append.mp he with h1 | h2
        · rcases List.mem_append.mp h1 with h3 | h4
          · exact hs1 e h3
          · exact UsShape_to_Main e (hs2 e h4)
        · simp only [List.mem_singleton] at h2
          subst h2
          trivial

/-- `mainRun` preserves existence of non-flac paths. -/
lemma mainRun_exists_of (env : Env) (st : St) (q : String)
    (hq : strSuffix flacExt q = false) (h : st.fs.existsPath q = true) :
    (stOf (mainRun env st)).fs.existsPath q = true := by
  unfold mainRun
  dsimp only [St.addEvent]
  have h0 := exists_create_directories_of st q h
  have h1 := download_librispeech_exists_of env (create_directories st) q hq h0
  split
  · next s heq =>
    rw [heq] at h1
    exact h1
  · next s1 heq =>
    rw [heq] at h1
    simp only [stOf] at h1
    have h2 := download_urbansound8k_exists_of env s1 q h1
    split
    · next s2 heq2 =>
      rw [heq2] at h2
      exact h2
    · next s2 heq2 =>
      rw [heq2] at h2
      simp only [stOf] at h2
      exact h2

/-- Is this event a conversion? -/
def isConvert : Event → Bool
  | Event.convert _ => true
  | _ => false

/-- Is this event an error log entry? -/
def isLogError : Event → Bool
  | Event.logError _ => true
  | _ => false

/-- Is this event a download attempt for the given URL? -/
def isAttemptOf (url : String) : Event → Bool
  | Event.attempt u => u == url
  | _ => false

/-- Is this event any download attempt? -/
def isAnyAttempt : Event → Bool
  | Event.attempt _ => true
  | _ => false

/-- Is this event a member extraction? -/
def isExtractEv : Event → Bool
  | Event.extractMember _ => true
  | _ => false

/-- Extraction events only for `.flac` member names. -/
def extrFlacOk : Event → Bool
  | Event.extractMember n => strSuffix flacExt n
  | _ => true

/-- No download, no successful download, no extraction. -/
def quietEvent : Event → Bool
  | Event.attempt _ => false
  | Event.download _ => false
  | Event.extractMember _ => false
  | _ => true

/-- Removal preserves absence. -/
lemma exists_remove_false (fs : FS) (p q : String)
    (h : fs.existsPath q = false) : (fs.remove p).existsPath q = false := by
  cases hr : (fs.remove p).existsPath q
  · rfl
  · rw [exists_of_exists_remove fs p q hr] at h
    cases h

/-- A file removed by the delete fold had its wav sibling on disk at entry. -/
lemma dff_read_removed : ∀ (L : List String) (st : St) (p : String) (v : FileData),
    st.fs.read p = some v → (L.foldl deleteFlacStep st).fs.read p = none →
    st.fs.existsPath (flacWav p) = true := by
  intro L
  induction L with
  | nil =>
    intro st p v h1 h2
    rw [List.foldl_nil, h1] at h2
    cases h2
  | cons a l ih =>
    intro st p v h1 h2
    rw [List.foldl_cons] at h2
    by_cases hg : st.fs.existsPath (flacWav a) = true
    · by_cases hpa : p = a
      · subst hpa
        exact hg
      · have h3 : (deleteFlacStep st a).fs.read p = st.fs.read p := by
          unfold deleteFlacStep
          rw [if_pos hg]
          exact read_remove_ne st.fs a p hpa
        have h4 := ih (deleteFlacStep st a) p v (by rw [h3]; exact h1) h2
        have h5 : (deleteFlacStep st a).fs = st.fs.remove a := by
          unfold deleteFlacStep
          rw [if_pos hg]
        rw [h5] at h4
        exact exists_of_exists_remove _ _ _ h4
    · have hg2 : deleteFlacStep st a = st := by
        unfold deleteFlacStep
        rw [if_neg hg]
      rw [hg2] at h2
      exact ih st p v h1 h2

/-- A flac file without its wav sibling is untouched by the delete fold. -/
lemma dff_read_kept : ∀ (L : List String) (st : St) (p : String),
    st.fs.existsPath (flacWav p) = false →
    (L.foldl deleteFlacStep st).fs.read p = st.fs.read p := by
  intro L
  induction L with
  | nil => intro st p _; rfl
  | cons a l ih =>
    intro st p h
    rw [List.foldl_cons]
    by_cases hg : st.fs.existsPath (flacWav a) = true
    · have hpa : p ≠ a := by
        intro hh
        rw [hh] at h
        rw [h] at hg
        cases hg
      have hfs : (deleteFlacStep st a).fs = st.fs.remove a := by
        unfold deleteFlacStep
        rw [if_pos hg]
      have hh2 : (deleteFlacStep st a).fs.existsPath (flacWav p) = false := by
        rw [hfs]
        exact exists_remove_false _ _ _ h
      rw [ih (deleteFlacStep st a) p hh2, hfs]
      exact read_remove_ne st.fs a p hpa
    · have hg2 : deleteFlacStep st a = st := by
        unfold deleteFlacStep
        rw [if_neg hg]
      rw [hg2]
      exact ih st p h

/-- C3: for every dataset URL whose destination file path already exists,
the downloader performs no download and leaves the existing destination
file's contents unchanged — the download block returns the state untouched
(both LibriSpeech and UrbanSound8K call this block). -/
theorem C3_skip_existing_download (env : Env) (st : St) (url fp m1 m2 : String)
    (h : st.fs.existsPath fp = true) :
    download_to env st url fp m1 m2 = RunResult.ok st ∧
    (stOf (download_to env st url fp m1 m2)).fs.read fp = st.fs.read fp ∧
    (stOf (download_to env st url fp m1 m2)).events = st.events := by
  have h1 := download_to_exists env st url fp m1 m2 h
  refine ⟨h1, ?_, ?_⟩ <;> simp [h1, stOf]

/-- C6: after `mark_as_extracted(directory, filename)` runs, a zero-byte
file named `.<filename>.extracted` exists in `directory` and
`is_extracted(directory, filename)` returns true; and no operation of the
program (over a whole `main` run) ever deletes a marker file: a present
marker is still present after any run. -/
theorem C6_extraction_marker :
    (∀ (fs : FS) (directory filename : String),
      (mark_as_extracted fs directory filename).read
        (markerPath directory filename) = some (FileData.bytes "")) ∧
    (∀ (fs : FS) (directory filename : String),
      is_extracted (mark_as_extracted fs directory filename) directory filename =
        true) ∧
    (∀ (env : Env) (st : St) (directory filename : String),
      is_extracted st.fs directory filename = true →
      is_extracted (stOf (mainRun env st)).fs directory filename = true) := by
  refine ⟨mark_as_extracted_read, is_extracted_mark, ?_⟩
  intro env st directory filename h
  exact mainRun_exists_of env st (markerPath directory filename)
    (marker_not_flac directory filename) h

/-- C7: `delete_flac_files` removes a `.flac` file only when its derived
`.wav` sibling path exists on disk at the call, and leaves every file whose
derived `.wav` sibling is absent unchanged. -/
theorem C7_delete_only_with_wav (st : St) (dir p : String) (v : FileData) :
    (st.fs.read p = some v → (delete_flac_files st dir).fs.read p = none →
      st.fs.existsPath (flacWav p) = true) ∧
    (st.fs.existsPath (flacWav p) = false →
      (delete_flac_files st dir).fs.read p = st.fs.read p) := by
  constructor
  · intro h1 h2
    exact dff_read_removed (flacFilesUnder st.fs dir) st p v h1 h2
  · intro h
    exact dff_read_kept (flacFilesUnder st.fs dir) st p h

/-- C8: when the load/resample/write conversion of an extracted `.flac`
member raises, the error is logged (exactly one new error entry), the
member's `.flac` file is not removed, and the loop continues with the
remaining members. -/
theorem C8_conversion_error_handling (env : Env) (st : St) (m : TarMember)
    (rest : List TarMember)
    (hf : strSuffix flacExt m.name = true)
    (he : env.conv (pjoin LIBRISPEECH_DIR m.name) ≠ ConvOutcome.ok) :
    (processMember env st m).fs.existsPath (pjoin LIBRISPEECH_DIR m.name) = true ∧
    (processMember env st m).events.countP isLogError =
      st.events.countP isLogError + 1 ∧
    processMembers env st (m :: rest) =
      processMembers env (processMember env st m) rest := by
  refine ⟨?_, ?_, ?_⟩
  · unfold processMember
    dsimp only
    rw [if_pos hf]
    cases hc : env.conv (pjoin LIBRISPEECH_DIR m.name) with
    | ok => exact absurd hc he
    | errLoad =>
      dsimp only
      unfold extractMemberTo
      exact exists_write_self _ _ _
    | errWrite =>
      dsimp only
      unfold extractMemberTo
      exact exists_write_self _ _ _
    | errRemove =>
      dsimp only
      refine exists_write_of _ _ _ _ ?_
      unfold extractMemberTo
      exact exists_write_self _ _ _
  · unfold processMember
    dsimp only
    rw [if_pos hf]
    cases hc : env.conv (pjoin LIBRISPEECH_DIR m.name) with
    | ok => exact absurd hc he
    | errLoad =>
      simp [List.countP_append, List.countP_cons, isLogError]
    | errWrite =>
      simp [List.countP_append, List.countP_cons, isLogError]
    | errRemove =>
      simp [List.countP_append, List.countP_cons, isLogError]
  · unfold processMembers
    rw [List.foldl_cons]

/-- C10: during LibriSpeech extraction only archive members whose names end
in `.flac` are ever extracted: every extraction event in the trace of
`download_librispeech` names a `.flac` member. -/
theorem C10_librispeech_extracts_only_flac (env : Env) (st : St)
    (h : st.events.all extrFlacOk = true) :
    (stOf (download_librispeech env st)).events.all extrFlacOk = true := by
  have hf : ∀ (st : St) (u : String), u ∈ LIBRISPEECH_URLS →
      ∃ δ, (stOf (processLibUrl env st u)).events = st.events ++ δ ∧
        ∀ e ∈ δ, extrFlacOk e = true := by
    intro st u _
    obtain ⟨δ, hδ, hs⟩ := processLibUrl_shape env st u
    refine ⟨δ, hδ, fun e he => ?_⟩
    have h2 := hs e he
    cases e <;> simp_all [LibUrlShape, extrFlacOk]
  unfold download_librispeech
  obtain ⟨δ, hδ, hs⟩ := foldAbort_shape (processLibUrl env)
    (fun e => extrFlacOk e = true) LIBRISPEECH_URLS hf st
  rw [hδ, List.all_append, h, Bool.true_and]
  rw [List.all_eq_true]
  exact hs

/-- Witness environment for C3. -/
def env3 : Env := ⟨fun _ => none, fun _ => ConvOutcome.ok⟩

/-- Witness destination path for C3. -/
def fp3 : String := "RealTime_Denoise_App/datasets/LibriSpeech/train-clean-100.tar.gz"

/-- Witness state for C3: the destination already holds an archive. -/
def st3 : St := ⟨⟨[(fp3, FileData.tar [])], []⟩, []⟩

/-- Witness start message for C3. -/
def msg3a : String := "Downloading train-clean-100.tar.gz..."

/-- Witness done message for C3. -/
def msg3b : String := "train-clean-100.tar.gz downloaded successfully."

/-- Witness for C3 at a concrete populated state. -/
theorem C3_witness :
    download_to env3 st3 LS_URL1 fp3 msg3a msg3b = RunResult.ok st3 ∧
    (stOf (download_to env3 st3 LS_URL1 fp3 msg3a msg3b)).fs.read fp3 =
      st3.fs.read fp3 ∧
    (stOf (download_to env3 st3 LS_URL1 fp3 msg3a msg3b)).events = st3.events :=
  C3_skip_existing_download env3 st3 LS_URL1 fp3 msg3a msg3b (by decide)

/-- Witness environment for C6. -/
def env6 : Env := ⟨fun _ => some (FileData.tar []), fun _ => ConvOutcome.ok⟩

/-- Witness directory for C6. -/
def dir6 : String := "d6"

/-- Witness filename for C6. -/
def fn6 : String := "f6.tar.gz"

/-- Witness state for C6: its marker file already exists. -/
def st6 : St := ⟨⟨[(markerPath dir6 fn6, FileData.bytes "")], []⟩, []⟩

/-- Witness empty filesystem for C6. -/
def fs6 : FS := ⟨[], []⟩

/-- Witness for C6 at concrete inputs. -/
theorem C6_witness :
    ((mark_as_extracted fs6 dir6 fn6).read (markerPath dir6 fn6) =
      some (FileData.bytes "")) ∧
    (is_extracted (mark_as_extracted fs6 dir6 fn6) dir6 fn6 = true) ∧
    (is_extracted (stOf (mainRun env6 st6)).fs dir6 fn6 = true) :=
  ⟨C6_extraction_marker.1 fs6 dir6 fn6,
   C6_extraction_marker.2.1 fs6 dir6 fn6,
   C6_extraction_marker.2.2 env6 st6 dir6 fn6 (by decide)⟩

/-- Witness directory for C7. -/
def dir7 : String := "w"

/-- Witness flac path with wav sibling for C7. -/
def flac7 : String := "w/a.flac"

/-- Witness flac path without wav sibling for C7. -/
def lone7 : String := "w/b.flac"

/-- Witness state for C7. -/
def st7 : St :=
  ⟨⟨[(flac7, FileData.audio 44100 2), ("w/a.wav", FileData.audio 16000 1),
     (lone7, FileData.audio 44100 2)], []⟩, []⟩

/-- Witness for C7 at a concrete state: the lone flac is untouched and the
converted one had its wav sibling present. -/
theorem C7_witness :
    st7.fs.existsPath (flacWav flac7) = true ∧
    (delete_flac_files st7 dir7).fs.read lone7 = st7.fs.read lone7 := by
  constructor
  · exact (C7_delete_only_with_wav st7 dir7 flac7 (FileData.audio 44100 2)).1
      (by decide) (by decide)
  · exact (C7_delete_only_with_wav st7 dir7 lone7 (FileData.audio 44100 2)).2
      (by decide)

/-- Witness member for C8. -/
def m8 : TarMember := ⟨"x/a.flac", 44100, 2⟩

/-- Witness environment for C8: conversion always fails at load. -/
def env8 : Env := ⟨fun _ => none, fun _ => ConvOutcome.errLoad⟩

/-- Witness state for C8. -/
def st8 : St := ⟨⟨[], []⟩, []⟩

/-- Witness for C8 at a concrete failing conversion. -/
theorem C8_witness :
    (processMember env8 st8 m8).fs.existsPath (pjoin LIBRISPEECH_DIR m8.name) =
      true ∧
    (processMember env8 st8 m8).events.countP isLogError =
      st8.events.countP isLogError + 1 ∧
    processMembers env8 st8 (m8 :: []) =
      processMembers env8 (processMember env8 st8 m8) [] :=
  C8_conversion_error_handling env8 st8 m8 [] (by decide) (by decide)

/-- Witness environment for C10: the archive holds one flac member and one
transcript member. -/
def env10 : Env :=
  ⟨fun _ => some (FileData.tar [⟨"t/a.flac", 8000, 1⟩, ⟨"t/readme.txt", 0, 0⟩]),
   fun _ => ConvOutcome.ok⟩

/-- Witness state for C10. -/
def st10 : St := ⟨⟨[], []⟩, []⟩

/-- Witness for C10 at a concrete run. -/
theorem C10_witness :
    (stOf (download_librispeech env10 st10)).events.all extrFlacOk = true :=
  C10_librispeech_extracts_only_flac env10 st10 (by decide)

/-- Skip-branch events contain no conversions. -/
lemma skip_events_no_convert (δ : List Event) (hs : ∀ e ∈ δ, SkipShape e) :
    δ.countP isConvert = 0 := by
  rw [List.countP_eq_zero]
  intro e he
  have h2 := hs e he
  cases e <;> simp_all [SkipShape, isConvert]

/-- C5 (amended): when an archive is marked extracted and its directory
exists, the normalizer does not reprocess any `.flac` file (the skip branch
performs no conversion); and every WAV the conversion step writes is 16kHz
mono regardless of the member's stored sample rate or channel count.
(The claim's skip part fails during re-extraction - see the
counterexample - so it is amended to the skip branch.) -/
theorem C5_skip_and_16k (env : Env) (st : St) (url : String)
    (h : (st.fs.existsPath (extractDirOf url) &&
      is_extracted st.fs LIBRISPEECH_DIR (filenameOf url)) = true) :
    (∃ st2, processLibUrl env st url = RunResult.ok st2 ∧
      st2.events.countP isConvert = st.events.countP isConvert) ∧
    (∀ m : TarMember, convertedWavData m = FileData.audio 16000 1) := by
  constructor
  · refine ⟨skipBranch st (filenameOf url) (extractDirOf url),
      processLibUrl_skip env st url h, ?_⟩
    obtain ⟨δ, hδ, hs⟩ := skipBranch_shape st (filenameOf url) (extractDirOf url)
    rw [hδ, List.countP_append, skip_events_no_convert δ hs]
    omega
  · intro m
    rfl

/-- Counterexample member for C5. -/
def m5 : TarMember := ⟨"d/a.flac", 44100, 2⟩

/-- Counterexample flac path for C5. -/
def flacP5 : String := pjoin LIBRISPEECH_DIR "d/a.flac"

/-- Counterexample wav sibling path for C5. -/
def wavP5 : String := "RealTime_Denoise_App/datasets/LibriSpeech/d/a.wav"

/-- Counterexample environment for C5. -/
def env5 : Env := ⟨fun _ => some (FileData.tar [m5]), fun _ => ConvOutcome.ok⟩

/-- Counterexample state for C5: the archive is on disk, the flac member is
on disk and its WAV sibling already exists, but no marker is set. -/
def st5 : St :=
  ⟨⟨[(filepathOf LS_URL1, FileData.tar [m5]), (flacP5, FileData.audio 44100 2),
     (wavP5, FileData.audio 16000 1)], []⟩, []⟩

/-- Counterexample for C5 as stated: a `.flac` file whose WAV sibling is
already on disk is still reprocessed (one conversion event) because the
extraction loop converts unconditionally. -/
theorem C5_counterexample :
    st5.fs.existsPath wavP5 = true ∧ st5.fs.existsPath flacP5 = true ∧
    (stOf (processLibUrl env5 st5 LS_URL1)).events.countP isConvert = 1 := by
  refine ⟨by decide, by decide, by decide⟩

/-- Witness environment for C5. -/
def env5w : Env := ⟨fun _ => none, fun _ => ConvOutcome.ok⟩

/-- Witness state for C5: marked extracted with its directory present. -/
def st5w : St :=
  ⟨⟨[(markerPath LIBRISPEECH_DIR (filenameOf LS_URL1), FileData.bytes "")],
    [extractDirOf LS_URL1]⟩, []⟩

/-- Witness for C5 at a concrete skip-branch state. -/
theorem C5_witness :
    (∃ st2, processLibUrl env5w st5w LS_URL1 = RunResult.ok st2 ∧
      st2.events.countP isConvert = st5w.events.countP isConvert) ∧
    (∀ m : TarMember, convertedWavData m = FileData.audio 16000 1) :=
  C5_skip_and_16k env5w st5w LS_URL1 (by decide)

/-- With the archive present and the marker set, `download_urbansound8k`
only logs that extraction is skipped. -/
lemma download_urbansound8k_skip (env : Env) (st : St)
    (h5 : st.fs.existsPath (pjoin URBANSOUND_DIR (filenameOf URBANSOUND8K_URL)) =
      true)
    (h6 : is_extracted st.fs URBANSOUND_DIR (filenameOf URBANSOUND8K_URL) = true) :
    download_urbansound8k env st = RunResult.ok (st.addEvent
      (Event.logInfo "UrbanSound8K dataset already extracted. Skipping extraction.")) := by
  unfold download_urbansound8k
  dsimp only
  rw [download_to_exists env st URBANSOUND8K_URL
    (pjoin URBANSOUND_DIR (filenameOf URBANSOUND8K_URL)) _ _ h5]
  dsimp only
  rw [if_neg (by simp [h6])]

/-- C2 (amended): a failing download is immediately fatal — the script makes
a single `requests.get` attempt per URL with no retry and no backoff; the
first LibriSpeech URL failing (destination absent, source not marked
extracted) aborts the run after exactly one attempt. -/
theorem C2_single_attempt_fatal (env : Env) (fs : FS)
    (h1 : is_extracted (create_directories ⟨fs, ([] : List Event)⟩).fs
      LIBRISPEECH_DIR (filenameOf LS_URL1) = false)
    (h2 : (create_directories ⟨fs, ([] : List Event)⟩).fs.existsPath
      (filepathOf LS_URL1) = false)
    (h3 : env.net LS_URL1 = none) :
    ∃ s, mainRun env ⟨fs, []⟩ = RunResult.aborted s ∧
      s.events = [Event.logInfo ("Downloading " ++ filenameOf LS_URL1 ++ "..."),
        Event.attempt LS_URL1] ∧
      s.events.countP isAnyAttempt = 1 := by
  have e1 : processLibUrl env (create_directories ⟨fs, []⟩) LS_URL1 =
      RunResult.aborted ⟨(create_directories ⟨fs, []⟩).fs,
        [Event.logInfo ("Downloading " ++ filenameOf LS_URL1 ++ "..."),
         Event.attempt LS_URL1]⟩ := by
    unfold processLibUrl
    dsimp only
    rw [if_neg (by
      rw [Bool.and_eq_true]
      rintro ⟨-, hB⟩
      rw [h1] at hB
      cases hB)]
    unfold download_to
    rw [if_neg (by rw [h2]; exact Bool.false_ne_true)]
    dsimp only [St.addEvent]
    rw [h3]
    simp [events_create_directories]
  have elib : download_librispeech env (create_directories ⟨fs, []⟩) =
      RunResult.aborted ⟨(create_directories ⟨fs, []⟩).fs,
        [Event.logInfo ("Downloading " ++ filenameOf LS_URL1 ++ "..."),
         Event.attempt LS_URL1]⟩ := by
    unfold download_librispeech
    rw [show LIBRISPEECH_URLS = [LS_URL1, LS_URL2] from rfl]
    simp only [foldAbort, e1]
  refine ⟨⟨(create_directories ⟨fs, []⟩).fs,
    [Event.logInfo ("Downloading " ++ filenameOf LS_URL1 ++ "..."),
     Event.attempt LS_URL1]⟩, ?_, rfl, by simp [List.countP_cons, isAnyAttempt]⟩
  unfold mainRun
  dsimp only
  rw [elib]

/-- Counterexample environment for C2: the network always fails. -/
def env2c : Env := ⟨fun _ => none, fun _ => ConvOutcome.ok⟩

/-- Counterexample for C2 as stated: on a transient failure the run aborts
after exactly one attempt for the first URL — no retry, no backoff. -/
theorem C2_counterexample :
    (match mainRun env2c ⟨⟨[], []⟩, []⟩ with
     | RunResult.aborted s => s.events.countP isAnyAttempt == 1
     | RunResult.ok _ => false) = true := by decide

/-- Witness environment for C2. -/
def env2w : Env := ⟨fun _ => none, fun _ => ConvOutcome.errLoad⟩

/-- Witness for C2 at a concrete empty state. -/
theorem C2_witness :
    ∃ s, mainRun env2w ⟨⟨[], []⟩, []⟩ = RunResult.aborted s ∧
      s.events = [Event.logInfo ("Downloading " ++ filenameOf LS_URL1 ++ "..."),
        Event.attempt LS_URL1] ∧
      s.events.countP isAnyAttempt = 1 :=
  C2_single_attempt_fatal env2w ⟨[], []⟩ (by decide) (by decide) rfl

/-- C9 (amended): an unreadable LibriSpeech archive aborts the whole run
before any sibling source is processed: the run ends aborted with no
download attempt and no extraction anywhere (in particular none for the
second LibriSpeech URL or UrbanSound8K). -/
theorem C9_extraction_failure_aborts_siblings (env : Env) (fs : FS)
    (h1 : is_extracted (create_directories ⟨fs, ([] : List Event)⟩).fs
      LIBRISPEECH_DIR (filenameOf LS_URL1) = false)
    (h2 : fs.read (filepathOf LS_URL1) = some FileData.corruptTar) :
    ∃ s, mainRun env ⟨fs, []⟩ = RunResult.aborted s ∧
      s.events.countP isAnyAttempt = 0 ∧ s.events.countP isExtractEv = 0 := by
  have hread : (create_directories ⟨fs, []⟩).fs.read (filepathOf LS_URL1) =
      some FileData.corruptTar := by
    rw [read_create_directories]
    exact h2
  have hex : (create_directories ⟨fs, []⟩).fs.existsPath (filepathOf LS_URL1) =
      true :=
    exists_of_read_some _ _ _ hread
  have e1 : processLibUrl env (create_directories ⟨fs, []⟩) LS_URL1 =
      RunResult.aborted ⟨(create_directories ⟨fs, []⟩).fs,
        [Event.logInfo ("Extracting " ++ filenameOf LS_URL1 ++
          " and converting .flac files to .wav...")]⟩ := by
    unfold processLibUrl
    dsimp only
    rw [if_neg (by
      rw [Bool.and_eq_true]
      rintro ⟨-, hB⟩
      rw [h1] at hB
      cases hB)]
    rw [download_to_exists env (create_directories ⟨fs, []⟩) LS_URL1
      (filepathOf LS_URL1) ("Downloading " ++ filenameOf LS_URL1 ++ "...")
      (filenameOf LS_URL1 ++ " downloaded successfully.") hex]
    dsimp only [St.addEvent]
    rw [hread]
    simp [events_create_directories, openTar]
  have elib : download_librispeech env (create_directories ⟨fs, []⟩) =
      RunResult.aborted ⟨(create_directories ⟨fs, []⟩).fs,
        [Event.logInfo ("Extracting " ++ filenameOf LS_URL1 ++
          " and converting .flac files to .wav...")]⟩ := by
    unfold download_librispeech
    rw [show LIBRISPEECH_URLS = [LS_URL1, LS_URL2] from rfl]
    simp only [foldAbort, e1]
  refine ⟨⟨(create_directories ⟨fs, []⟩).fs,
    [Event.logInfo ("Extracting " ++ filenameOf LS_URL1 ++
      " and converting .flac files to .wav...")]⟩, ?_,
    by simp [List.countP_cons, isAnyAttempt],
    by simp [List.countP_cons, isExtractEv]⟩
  unfold mainRun
  dsimp only
  rw [elib]

/-- Counterexample environment for C9: the network would serve every
sibling source successfully. -/
def env9c : Env := ⟨fun _ => some (FileData.tar []), fun _ => ConvOutcome.ok⟩

/-- Counterexample state for C9: the first LibriSpeech archive is on disk
but unreadable; nothing else is present. -/
def fs9c : FS := ⟨[(filepathOf LS_URL1, FileData.corruptTar)], []⟩

/-- Counterexample for C9 as stated: the extraction failure aborts the run
and the UrbanSound8K sibling is never attempted even though its archive is
absent and its download would have succeeded. -/
theorem C9_counterexample :
    (match mainRun env9c ⟨fs9c, []⟩ with
     | RunResult.aborted s =>
       s.events.countP (isAttemptOf URBANSOUND8K_URL) == 0
     | RunResult.ok _ => false) = true := by decide

/-- Witness environment for C9. -/
def env9w : Env := ⟨fun _ => some (FileData.tar []), fun _ => ConvOutcome.ok⟩

/-- Witness state for C9. -/
def fs9w : FS := ⟨[(filepathOf LS_URL1, FileData.corruptTar)], []⟩

/-- Witness for C9 at a concrete corrupt archive. -/
theorem C9_witness :
    ∃ s, mainRun env9w ⟨fs9w, []⟩ = RunResult.aborted s ∧
      s.events.countP isAnyAttempt = 0 ∧ s.events.countP isExtractEv = 0 :=
  C9_extraction_failure_aborts_siblings env9w fs9w (by decide) (by decide)

/-- Skip-branch events are quiet (no download attempt, no download, no
extraction). -/
lemma skip_events_quiet (δ : List Event) (hs : ∀ e ∈ δ, SkipShape e) :
    δ.all quietEvent = true := by
  rw [List.all_eq_true]
  intro e he
  have h2 := hs e he
  cases e <;> simp_all [SkipShape, quietEvent]

/-- C4 (amended): a second `main` run against a filesystem in which every
source's archive-name directory exists and every marker is set (plus the
UrbanSound8K archive file) performs no downloads and no extractions —
every source is skipped and only logs, warnings and flac deletions occur.
(As stated the claim fails when an archive's members do not create the
directory named after it - see the counterexample.) -/
theorem C4_second_run_skips (env : Env) (fs : FS)
    (h1 : fs.existsPath (extractDirOf LS_URL1) = true)
    (h2 : is_extracted fs LIBRISPEECH_DIR (filenameOf LS_URL1) = true)
    (h3 : fs.existsPath (extractDirOf LS_URL2) = true)
    (h4 : is_extracted fs LIBRISPEECH_DIR (filenameOf LS_URL2) = true)
    (h5 : fs.existsPath (pjoin URBANSOUND_DIR (filenameOf URBANSOUND8K_URL)) = true)
    (h6 : is_extracted fs URBANSOUND_DIR (filenameOf URBANSOUND8K_URL) = true) :
    ∃ s2, mainRun env ⟨fs, []⟩ = RunResult.ok s2 ∧
      s2.events.all quietEvent = true := by
  have h1a : (create_directories ⟨fs, []⟩).fs.existsPath (extractDirOf LS_URL1) =
      true := exists_create_directories_of ⟨fs, []⟩ _ h1
  have h2a : (create_directories ⟨fs, []⟩).fs.existsPath
      (markerPath LIBRISPEECH_DIR (filenameOf LS_URL1)) = true :=
    exists_create_directories_of ⟨fs, []⟩ _ h2
  have h3a : (create_directories ⟨fs, []⟩).fs.existsPath (extractDirOf LS_URL2) =
      true := exists_create_directories_of ⟨fs, []⟩ _ h3
  have h4a : (create_directories ⟨fs, []⟩).fs.existsPath
      (markerPath LIBRISPEECH_DIR (filenameOf LS_URL2)) = true :=
    exists_create_directories_of ⟨fs, []⟩ _ h4
  have h5a : (create_directories ⟨fs, []⟩).fs.existsPath
      (pjoin URBANSOUND_DIR (filenameOf URBANSOUND8K_URL)) = true :=
    exists_create_directories_of ⟨fs, []⟩ _ h5
  have h6a : (create_directories ⟨fs, []⟩).fs.existsPath
      (markerPath URBANSOUND_DIR (filenameOf URBANSOUND8K_URL)) = true :=
    exists_create_directories_of ⟨fs, []⟩ _ h6
  have e1 : processLibUrl env (create_directories ⟨fs, []⟩) LS_URL1 =
      RunResult.ok (skipBranch (create_directories ⟨fs, []⟩)
        (filenameOf LS_URL1) (extractDirOf LS_URL1)) :=
    processLibUrl_skip env _ LS_URL1 (by rw [Bool.and_eq_true]; exact ⟨h1a, h2a⟩)
  have h3b : (skipBranch (create_directories ⟨fs, []⟩) (filenameOf LS_URL1)
      (extractDirOf LS_URL1)).fs.existsPath (extractDirOf LS_URL2) = true :=
    skipBranch_exists_of _ _ _ _ (by decide) h3a
  have h4b : (skipBranch (create_directories ⟨fs, []⟩) (filenameOf LS_URL1)
      (extractDirOf LS_URL1)).fs.existsPath
      (markerPath LIBRISPEECH_DIR (filenameOf LS_URL2)) = true :=
    skipBranch_exists_of _ _ _ _ (by decide) h4a
  have h5b : (skipBranch (create_directories ⟨fs, []⟩) (filenameOf LS_URL1)
      (extractDirOf LS_URL1)).fs.existsPath
      (pjoin URBANSOUND_DIR (filenameOf URBANSOUND8K_URL)) = true :=
    skipBranch_exists_of _ _ _ _ (by decide) h5a
  have h6b : (skipBranch (create_directories ⟨fs, []⟩) (filenameOf LS_URL1)
      (extractDirOf LS_URL1)).fs.existsPath
      (markerPath URBANSOUND_DIR (filenameOf URBANSOUND8K_URL)) = true :=
    skipBranch_exists_of _ _ _ _ (by decide) h6a
  have e2 : processLibUrl env (skipBranch (create_directories ⟨fs, []⟩)
      (filenameOf LS_URL1) (extractDirOf LS_URL1)) LS_URL2 =
      RunResult.ok (skipBranch (skipBranch (create_directories ⟨fs, []⟩)
        (filenameOf LS_URL1) (extractDirOf LS_URL1))
        (filenameOf LS_URL2) (extractDirOf LS_URL2)) :=
    processLibUrl_skip env _ LS_URL2 (by rw [Bool.and_eq_true]; exact ⟨h3b, h4b⟩)
  have h5c : (skipBranch (skipBranch (create_directories ⟨fs, []⟩)
      (filenameOf LS_URL1) (extractDirOf LS_URL1)) (filenameOf LS_URL2)
      (extractDirOf LS_URL2)).fs.existsPath
      (pjoin URBANSOUND_DIR (filenameOf URBANSOUND8K_URL)) = true :=
    skipBranch_exists_of _ _ _ _ (by decide) h5b
  have h6c : is_extracted (skipBranch (skipBranch (create_directories ⟨fs, []⟩)
      (filenameOf LS_URL1) (extractDirOf LS_URL1)) (filenameOf LS_URL2)
      (extractDirOf LS_URL2)).fs URBANSOUND_DIR (filenameOf URBANSOUND8K_URL) =
      true :=
    skipBranch_exists_of _ _ _ _ (by decide) h6b
  have elib : download_librispeech env (create_directories ⟨fs, []⟩) =
      RunResult.ok (skipBranch (skipBranch (create_directories ⟨fs, []⟩)
        (filenameOf LS_URL1) (extractDirOf LS_URL1))
        (filenameOf LS_URL2) (extractDirOf LS_URL2)) := by
    unfold download_librispeech
    rw [show LIBRISPEECH_URLS = [LS_URL1, LS_URL2] from rfl]
    simp only [foldAbort, e1, e2]
  have eus := download_urbansound8k_skip env (skipBranch (skipBranch
    (create_directories ⟨fs, []⟩) (filenameOf LS_URL1) (extractDirOf LS_URL1))
    (filenameOf LS_URL2) (extractDirOf LS_URL2)) h5c h6c
  obtain ⟨δ1, hδ1, hs1⟩ := skipBranch_shape (create_directories ⟨fs, []⟩)
    (filenameOf LS_URL1) (extractDirOf LS_URL1)
  obtain ⟨δ2, hδ2, hs2⟩ := skipBranch_shape (skipBranch
    (create_directories ⟨fs, []⟩) (filenameOf LS_URL1) (extractDirOf LS_URL1))
    (filenameOf LS_URL2) (extractDirOf LS_URL2)
  refine ⟨((skipBranch (skipBranch (create_directories ⟨fs, []⟩)
      (filenameOf LS_URL1) (extractDirOf LS_URL1)) (filenameOf LS_URL2)
      (extractDirOf LS_URL2)).addEvent (Event.logInfo
        "UrbanSound8K dataset already extracted. Skipping extraction.")).addEvent
      (Event.logInfo "Data collection and processing completed successfully."),
    ?_, ?_⟩
  · unfold mainRun
    dsimp only
    rw [elib]
    dsimp only
    rw [eus]
  · have hq1 : δ1.all quietEvent = true := skip_events_quiet δ1 hs1
    have hq2 : δ2.all quietEvent = true := skip_events_quiet δ2 hs2
    simp only [St.addEvent]
    rw [hδ2, hδ1, events_create_directories]
    simp [List.all_append, hq1, hq2, quietEvent]

/-- Counterexample environment for C4: the real-world LibriSpeech layout,
whose members live under a top-level `LibriSpeech/` directory rather than
one named after the archive. -/
def env4c : Env :=
  ⟨fun u => if u = LS_URL1
      then some (FileData.tar [⟨"LibriSpeech/x.flac", 8000, 1⟩])
      else some (FileData.tar []),
   fun _ => ConvOutcome.ok⟩

/-- Both runs of the C4 counterexample: the first run completes, and the
second run performs no downloads but does re-extract. -/
def c4SecondRunReExtracts : Bool :=
  match mainRun env4c ⟨⟨[], []⟩, []⟩ with
  | RunResult.ok s1 =>
    (match mainRun env4c ⟨s1.fs, []⟩ with
     | RunResult.ok s2 =>
       (s2.events.countP isAnyAttempt == 0) && (s2.events.countP isExtractEv == 1)
     | RunResult.aborted _ => false)
  | RunResult.aborted _ => false

/-- Counterexample for C4 as stated: after a completed first run from an
empty filesystem, the second run performs an extraction again (one
extraction event), because no directory named after the archive exists. -/
theorem C4_counterexample : c4SecondRunReExtracts = true := by decide

/-- Witness environment for C4. -/
def env4w : Env := ⟨fun _ => none, fun _ => ConvOutcome.ok⟩

/-- Witness filesystem for C4: markers set, archive-name directories
present, UrbanSound8K archive on disk. -/
def fs4w : FS :=
  ⟨[(pjoin URBANSOUND_DIR (filenameOf URBANSOUND8K_URL), FileData.tar []),
    (markerPath LIBRISPEECH_DIR (filenameOf LS_URL1), FileData.bytes ""),
    (markerPath LIBRISPEECH_DIR (filenameOf LS_URL2), FileData.bytes ""),
    (markerPath URBANSOUND_DIR (filenameOf URBANSOUND8K_URL), FileData.bytes "")],
   [extractDirOf LS_URL1, extractDirOf LS_URL2]⟩

/-- Witness for C4 at a concrete populated state. -/
theorem C4_witness :
    ∃ s2, mainRun env4w ⟨fs4w, []⟩ = RunResult.ok s2 ∧
      s2.events.all quietEvent = true :=
  C4_second_run_skips env4w fs4w (by decide) (by decide) (by decide)
    (by decide) (by decide) (by decide)

/-- With the destination archive already on disk, processing its URL makes
no download attempt at all. -/
lemma processLibUrl_noattempt (env : Env) (st : St) (url : String)
    (h : st.fs.existsPath (filepathOf url) = true) :
    ∃ δ, (stOf (processLibUrl env st url)).events = st.events ++ δ ∧
      ∀ e ∈ δ, isAnyAttempt e = false := by
  unfold processLibUrl
  dsimp only [St.addEvent]
  split
  · obtain ⟨δ, hδ, hs⟩ := skipBranch_shape st (filenameOf url) (extractDirOf url)
    refine ⟨δ, hδ, fun e he => ?_⟩
    have h2 := hs e he
    cases e <;> simp_all [SkipShape, isAnyAttempt]
  · rw [download_to_exists env st url (filepathOf url)
      ("Downloading " ++ filenameOf url ++ "...")
      (filenameOf url ++ " downloaded successfully.") h]
    dsimp only
    split
    · refine ⟨[Event.logInfo ("Extracting " ++ filenameOf url ++
        " and converting .flac files to .wav...")], by simp [stOf], ?_⟩
      intro e he
      simp only [List.mem_singleton] at he
      subst he
      rfl
    · next members heq2 =>
      obtain ⟨δ2, hδ2, hs2⟩ := processMembers_shape env
        ⟨st.fs, st.events ++ [Event.logInfo ("Extracting " ++ filenameOf url ++
          " and converting .flac files to .wav...")]⟩ members
      refine ⟨[Event.logInfo ("Extracting " ++ filenameOf url ++
          " and converting .flac files to .wav...")] ++ δ2 ++
        [Event.logInfo (filenameOf url ++ " extracted and processed successfully.")],
        ?_, ?_⟩
      · dsimp only [stOf]
        rw [hδ2]
        dsimp only
        simp [List.append_assoc]
      · intro e he
        rcases List.mem_append.mp he with h1 | h2
        · rcases List.mem_append.mp h1 with h3 | h4
          · simp only [List.mem_singleton] at h3
            subst h3
            rfl
          · have h5 := hs2 e h4
            cases e <;> simp_all [PMShape, isAnyAttempt]
        · simp only [List.mem_singleton] at h2
          subst h2
          rfl

/-- Invariant for C1: no download attempt for the first LibriSpeech URL has
been made and its destination archive is still on disk. -/
def Inv1 (s : St) : Prop :=
  s.events.countP (isAttemptOf LS_URL1) = 0 ∧
  s.fs.existsPath (filepathOf LS_URL1) = true

/-- Processing either LibriSpeech URL preserves `Inv1` when the first URL's
archive exists. -/
lemma processLibUrl_Inv1 (env : Env) (st : St) (u : String)
    (hu : u ∈ LIBRISPEECH_URLS) (hI : Inv1 st) :
    Inv1 (stOf (processLibUrl env st u)) := by
  obtain ⟨ha, hb⟩ := hI
  have hflac : strSuffix flacExt (filepathOf LS_URL1) = false := by decide
  have hmem : u = LS_URL1 ∨ u = LS_URL2 := by simpa [LIBRISPEECH_URLS] using hu
  constructor
  · rcases hmem with rfl | rfl
    · obtain ⟨δ, hδ, hs⟩ := processLibUrl_noattempt env st LS_URL1 hb
      rw [hδ, List.countP_append, ha]
      have hz : δ.countP (isAttemptOf LS_URL1) = 0 := by
        rw [List.countP_eq_zero]
        intro e he hc
        have h2 := hs e he
        cases e with
        | attempt u => exact absurd h2 (by simp [isAnyAttempt])
        | download u => exact absurd hc (by simp [isAttemptOf])
        | extractMember n => exact absurd hc (by simp [isAttemptOf])
        | convert p => exact absurd hc (by simp [isAttemptOf])
        | deleteFile p => exact absurd hc (by simp [isAttemptOf])
        | logInfo m => exact absurd hc (by simp [isAttemptOf])
        | logWarning m => exact absurd hc (by simp [isAttemptOf])
        | logError m => exact absurd hc (by simp [isAttemptOf])
      rw [hz]
    · obtain ⟨δ, hδ, hs⟩ := processLibUrl_shape env st LS_URL2
      rw [hδ, List.countP_append, ha]
      have hz : δ.countP (isAttemptOf LS_URL1) = 0 := by
        rw [List.countP_eq_zero]
        intro e he hc
        have h2 := hs e he
        cases e with
        | attempt u =>
          have h3 : u = LS_URL2 := h2
          subst h3
          exact absurd hc (by decide)
        | download u => exact absurd hc (by simp [isAttemptOf])
        | extractMember n => exact absurd hc (by simp [isAttemptOf])
        | convert p => exact absurd hc (by simp [isAttemptOf])
        | deleteFile p => exact absurd hc (by simp [isAttemptOf])
        | logInfo m => exact absurd hc (by simp [isAttemptOf])
        | logWarning m => exact absurd hc (by simp [isAttemptOf])
        | logError m => exact absurd hc (by simp [isAttemptOf])
      rw [hz]
  · rcases hmem with rfl | rfl
    · exact processLibUrl_exists_of env st LS_URL1 _ hflac hb
    · exact processLibUrl_exists_of env st LS_URL2 _ hflac hb

/-- `download_urbansound8k` preserves `Inv1`. -/
lemma download_urbansound8k_Inv1 (env : Env) (s1 : St) (hI : Inv1 s1) :
    Inv1 (stOf (download_urbansound8k env s1)) := by
  obtain ⟨ha, hb⟩ := hI
  constructor
  · obtain ⟨δ, hδ, hs⟩ := download_urbansound8k_shape env s1
    rw [hδ, List.countP_append, ha]
    have hz : δ.countP (isAttemptOf LS_URL1) = 0 := by
      rw [List.countP_eq_zero]
      intro e he hc
      have h2 := hs e he
      cases e with
      | attempt u =>
        have h3 : u = URBANSOUND8K_URL := h2
        subst h3
        exact absurd hc (by decide)
      | download u => exact absurd hc (by simp [isAttemptOf])
      | extractMember n => exact absurd hc (by simp [isAttemptOf])
      | convert p => exact absurd hc (by simp [isAttemptOf])
      | deleteFile p => exact absurd hc (by simp [isAttemptOf])
      | logInfo m => exact absurd hc (by simp [isAttemptOf])
      | logWarning m => exact absurd hc (by simp [isAttemptOf])
      | logError m => exact absurd hc (by simp [isAttemptOf])
    rw [hz]
  · exact download_urbansound8k_exists_of env s1 _ hb

/-- C1 (amended): the script performs no checksum verification, so a
destination archive that already exists is consumed as-is: the run never
makes a download attempt for its URL and never deletes it (every deletion
targets a `.flac` path), whether the run completes or aborts. -/
theorem C1_no_checksum_no_redownload (env : Env) (fs : FS)
    (h : fs.existsPath (filepathOf LS_URL1) = true) :
    (stOf (mainRun env ⟨fs, []⟩)).events.countP (isAttemptOf LS_URL1) = 0 ∧
    (stOf (mainRun env ⟨fs, []⟩)).fs.existsPath (filepathOf LS_URL1) = true := by
  have h0 : Inv1 (create_directories ⟨fs, []⟩) := by
    constructor
    · rw [events_create_directories]
      rfl
    · exact exists_create_directories_of ⟨fs, []⟩ _ h
  have hlib : Inv1 (stOf (download_librispeech env (create_directories ⟨fs, []⟩))) :=
    foldAbort_preserve (processLibUrl env) Inv1 LIBRISPEECH_URLS
      (fun st u hu hI => processLibUrl_Inv1 env st u hu hI)
      (create_directories ⟨fs, []⟩) h0
  have hmain : Inv1 (stOf (mainRun env ⟨fs, []⟩)) := by
    unfold mainRun
    dsimp only
    split
    · next s heq =>
      rw [heq] at hlib
      exact hlib
    · next s1 heq =>
      rw [heq] at hlib
      simp only [stOf] at hlib
      have hus := download_urbansound8k_Inv1 env s1 hlib
      split
      · next s2 heq2 =>
        rw [heq2] at hus
        exact hus
      · next s2 heq2 =>
        rw [heq2] at hus
        simp only [stOf] at hus
        obtain ⟨ha, hb⟩ := hus
        constructor
        · simp only [stOf, St.addEvent]
          rw [List.countP_append, ha]
          simp [List.countP_cons, isAttemptOf]
        · exact hb
  exact hmain

/-- Counterexample environment for C1: the network would serve a fresh
archive with one flac member for the first URL. -/
def env1c : Env :=
  ⟨fun u => if u = LS_URL1
      then some (FileData.tar [⟨"g/good.flac", 16000, 1⟩])
      else some (FileData.tar []),
   fun _ => ConvOutcome.ok⟩

/-- Counterexample state for C1: the stored archive content differs from
what the network serves (a stand-in for a corrupted download). -/
def fs1c : FS := ⟨[(filepathOf LS_URL1, FileData.tar [])], []⟩

/-- Counterexample for C1 as stated: the stored archive differs from the
network's content, yet the run completes, never re-downloads it, never
deletes it, and consumes it unchanged — no mismatch is ever detected. -/
theorem C1_counterexample :
    env1c.net LS_URL1 ≠ some (FileData.tar []) ∧
    fs1c.read (filepathOf LS_URL1) = some (FileData.tar []) ∧
    (match mainRun env1c ⟨fs1c, []⟩ with
     | RunResult.ok s => (s.events.countP (isAttemptOf LS_URL1) == 0) &&
         (s.fs.read (filepathOf LS_URL1) == some (FileData.tar []))
     | RunResult.aborted _ => false) = true := by
  refine ⟨by decide, by decide, by decide⟩

/-- Witness environment for C1. -/
def env1w : Env := ⟨fun _ => none, fun _ => ConvOutcome.ok⟩

/-- Witness state for C1: the first archive is on disk. -/
def fs1w : FS := ⟨[(filepathOf LS_URL1, FileData.tar [])], []⟩

/-- Witness for C1 at a concrete state. -/
theorem C1_witness :
    (stOf (mainRun env1w ⟨fs1w, []⟩)).events.countP (isAttemptOf LS_URL1) = 0 ∧
    (stOf (mainRun env1w ⟨fs1w, []⟩)).fs.existsPath (filepathOf LS_URL1) = true :=
  C1_no_checksum_no_redownload env1w fs1w (by decide)
